import Mathlib

/-!
Login validator and payroll calculator (`src/main.cpp`).

A shallow embedding of the C program and proofs about it.

Modelling conventions:

* A `char` is a byte, `Byte = Fin 256`, read as `unsigned char`.
* A character array is a `List Byte`.  The C string an array holds is the run
  of bytes before its first NUL byte (`cstr`); a read at the end of the list
  sees the terminator, so every list designates a string.
* A `const char *` argument is an `Option (List Byte)`: `none` is `NULL`.
* `int` and `enum` values are `Int`; the enumerators are the constants of the
  source with the source's values.
* `double` is `ℚ` (exact arithmetic); a double read by `sscanf` may also be an
  infinity or NaN (`Double`).
* `stdin` is the list of bytes not yet read; end of input is the empty list.
* `sscanf(buffer, "%d", &x)` is `sscanf_d`; `sscanf(buffer, "%lf", &x)` is a
  parameter `scan` of the functions that call it.
* A loop takes fuel, one unit for each pass; `none` means the fuel ran out.
* `printf` is not embedded: it changes neither the buffers nor the control flow.
-/

namespace Payroll

/-- One `char`, read as `unsigned char`. -/
abbrev Byte := Fin 256

/-! ## Constants of the source -/

/-- Macro `#define USERNAME_MAX_LENGTH 32` -/
def USERNAME_MAX_LENGTH : Nat := 32

/-- Macro `#define PASSWORD_MAX_LENGTH 32` -/
def PASSWORD_MAX_LENGTH : Nat := 32

/-- Macro `#define VALID_USERNAME "hgzy"`: the bytes `h g z y`. -/
def VALID_USERNAME : List Byte := [104, 103, 122, 121]

/-- Macro `#define VALID_PASSWORD "1234"`: the bytes `1 2 3 4`. -/
def VALID_PASSWORD : List Byte := [49, 50, 51, 52]

/-- Enumerator `LOGIN_SUCCESS = 0` -/
def LOGIN_SUCCESS : Int := 0

/-- Enumerator `LOGIN_ERROR_EMPTY = 1` -/
def LOGIN_ERROR_EMPTY : Int := 1

/-- Enumerator `LOGIN_ERROR_INVALID_FORMAT = 2` -/
def LOGIN_ERROR_INVALID_FORMAT : Int := 2

/-- Enumerator `LOGIN_ERROR_WRONG_USERNAME = 3` -/
def LOGIN_ERROR_WRONG_USERNAME : Int := 3

/-- Enumerator `LOGIN_ERROR_WRONG_PASSWORD = 4` -/
def LOGIN_ERROR_WRONG_PASSWORD : Int := 4

/-! ## C library functions used by the login validator -/

/-- The C string held in a character array: the bytes before the first NUL. -/
def cstr : List Byte → List Byte
  | [] => []
  | c :: rest => if c = 0 then [] else c :: cstr rest

/-- The string a `const char *` designates; `none` for `NULL`. -/
def heldString (str : Option (List Byte)) : Option (List Byte) :=
  str.map cstr

/-- The array a non-`NULL` pointer points to.  `validateLogin` dereferences its
arguments only after `isEmpty` has excluded `NULL`. -/
def pointee : Option (List Byte) → List Byte
  | some buf => buf
  | none => []

/-- Function `isalpha` of `<ctype.h>` in the "C" locale (the program never calls
`setlocale`): non-zero exactly on `A`..`Z` and `a`..`z`. -/
def isalpha (c : Byte) : Int :=
  if (65 ≤ c.val ∧ c.val ≤ 90) ∨ (97 ≤ c.val ∧ c.val ≤ 122) then 1 else 0

/-- Function `isdigit` of `<ctype.h>`: non-zero exactly on `0`..`9`. -/
def isdigit (c : Byte) : Int :=
  if 48 ≤ c.val ∧ c.val ≤ 57 then 1 else 0

/-- Function `strcmp` of `<string.h>`: the difference of the first pair of bytes that
differ (as `unsigned char`), `0` when both strings end together. -/
def strcmp : List Byte → List Byte → Int
  | [], [] => 0
  | [], c2 :: _ => 0 - (c2.val : Int)
  | c1 :: _, [] => (c1.val : Int) - 0
  | c1 :: r1, c2 :: r2 =>
    if c1 ≠ c2 then (c1.val : Int) - (c2.val : Int)
    else if c1 = 0 then 0
    else strcmp r1 r2

/-- Function `strlen` of `<string.h>`: the number of bytes before the first NUL. -/
def strlen : List Byte → Nat
  | [] => 0
  | c :: rest => if c = 0 then 0 else strlen rest + 1

/-! ## Login validator -/

/-- Function `int isEmpty(const char *str)`:
`return (str == NULL || str[0] == '\0');` -/
def isEmpty (str : Option (List Byte)) : Int :=
  match str with
  | none => 1
  | some buf => if buf.headD 0 = 0 then 1 else 0

/-- Function `int isAllLetters(const char *str)`: walk the string up to its NUL, return
`0` at the first byte `isalpha` rejects, `1` at the end. -/
def isAllLetters : List Byte → Int
  | [] => 1
  | c :: rest =>
    if c = 0 then 1
    else if isalpha c = 0 then 0
    else isAllLetters rest

/-- Function `int isAllDigits(const char *str)`: walk the string up to its NUL, return
`0` at the first byte `isdigit` rejects, `1` at the end. -/
def isAllDigits : List Byte → Int
  | [] => 1
  | c :: rest =>
    if c = 0 then 1
    else if isdigit c = 0 then 0
    else isAllDigits rest

/-- Function `LoginStatus validateLogin(const char *username, const char *password)`. -/
def validateLogin (username password : Option (List Byte)) : Int :=
  if isEmpty username ≠ 0 ∨ isEmpty password ≠ 0 then
    LOGIN_ERROR_EMPTY
  else if isAllLetters (pointee username) = 0 then
    LOGIN_ERROR_INVALID_FORMAT
  else if isAllDigits (pointee password) = 0 then
    LOGIN_ERROR_INVALID_FORMAT
  else if strcmp (pointee username) VALID_USERNAME ≠ 0 then
    LOGIN_ERROR_WRONG_USERNAME
  else if strcmp (pointee password) VALID_PASSWORD ≠ 0 then
    LOGIN_ERROR_WRONG_PASSWORD
  else
    LOGIN_SUCCESS

/-- What `handleLoginStatus` leaves behind: its return value and the two
buffers it was given. -/
structure HandleResult where
  ret : Int
  username : List Byte
  password : List Byte
deriving DecidableEq, Repr

/-- Function `int handleLoginStatus(LoginStatus status, char *username, char *password)`:
the `switch` on `status`, with `username[0] = '\0'` and `password[0] = '\0'` as
stores into the first byte of the array. -/
def handleLoginStatus (status : Int) (username password : List Byte) : HandleResult :=
  if status = LOGIN_SUCCESS then
    { ret := 0, username := username, password := password }
  else if status = LOGIN_ERROR_EMPTY then
    { ret := 1, username := username, password := password }
  else if status = LOGIN_ERROR_INVALID_FORMAT then
    { ret := 1, username := username, password := password }
  else if status = LOGIN_ERROR_WRONG_USERNAME then
    { ret := 1, username := username.set 0 0, password := password.set 0 0 }
  else if status = LOGIN_ERROR_WRONG_PASSWORD then
    { ret := 1, username := username, password := password.set 0 0 }
  else
    { ret := 1, username := username, password := password }

/-! ## Line input -/

/-- The bytes one `fgets` call takes from the stream: at most `n`, stopping
after a newline (byte 10) or at end of input.  Returns the bytes taken and the
rest of the stream. -/
def fgetsChars : Nat → List Byte → List Byte × List Byte
  | 0, stream => ([], stream)
  | _ + 1, [] => ([], [])
  | n + 1, c :: stream =>
    if c = 10 then ([c], stream)
    else ((fgetsChars n stream).1.cons c, (fgetsChars n stream).2)

/-- Function `fgets(buffer, size, stdin)` of `<stdio.h>`: `NULL` (`none`, the array
untouched) at end of input, otherwise the bytes taken followed by a NUL are
stored at the start of the array.  The second component is the stream left. -/
def fgets (buffer : List Byte) (size : Nat) (stdin : List Byte) :
    Option (List Byte) × List Byte :=
  if stdin = [] then (none, stdin)
  else
    let taken := (fgetsChars (size - 1) stdin).1
    (some (taken ++ 0 :: buffer.drop (taken.length + 1)), (fgetsChars (size - 1) stdin).2)

/-- The newline removal of `safeGetLine`:
`len = strlen(buffer); if (len > 0 && buffer[len - 1] == '\n') buffer[len - 1] = '\0';` -/
def stripNewline (buffer : List Byte) : List Byte :=
  let len := strlen buffer
  if len > 0 ∧ buffer.getD (len - 1) 0 = 10 then buffer.set (len - 1) 0
  else buffer

/-- Function `char *safeGetLine(char *buffer, size_t size)`: `fgets`, then a trailing
newline is overwritten by NUL.  `none` is the `NULL` return. -/
def safeGetLine (buffer : List Byte) (size : Nat) (stdin : List Byte) :
    Option (List Byte) × List Byte :=
  match fgets buffer size stdin with
  | (none, rest) => (none, rest)
  | (some buf, rest) => (some (stripNewline buf), rest)

/-! ## Login loop -/

/-- The local variables of `performLogin`, the unread input, and the statuses
`validateLogin` has returned so far (`trace`, a ghost field the C code does not
have, newest last). -/
structure LoginState where
  username : List Byte
  password : List Byte
  continue_login : Int
  attempts : Int
  stdin : List Byte
  trace : List Int
deriving DecidableEq, Repr

/-- How `performLogin` is left: by a `return` statement with a value, or by
reaching the closing brace of the function body, which has no `return`. -/
inductive LoginExit where
  | returned (value : Int)
  | fellOffEnd
deriving DecidableEq, Repr

/-- Function `int max_attempts = 3;` -/
def max_attempts : Int := 3

/-- The `while (continue_login && attempts < max_attempts)` loop of
`performLogin`.  One unit of fuel pays for one evaluation of the loop
condition; `none` means the fuel ran out with the loop still running. -/
def performLoginLoop : Nat → LoginState → Option (LoginExit × LoginState)
  | 0, _ => none
  | fuel + 1, s =>
    if s.continue_login ≠ 0 ∧ s.attempts < max_attempts then
      match safeGetLine s.username USERNAME_MAX_LENGTH s.stdin with
      | (none, stdin1) => performLoginLoop fuel { s with stdin := stdin1 }
      | (some username, stdin1) =>
        match safeGetLine s.password PASSWORD_MAX_LENGTH stdin1 with
        | (none, stdin2) =>
          performLoginLoop fuel { s with username := username, stdin := stdin2 }
        | (some password, stdin2) =>
          let status := validateLogin (some username) (some password)
          let h := handleLoginStatus status username password
          if h.ret ≠ 0 then
            if s.attempts + 1 < max_attempts then
              performLoginLoop fuel
                { username := h.username, password := h.password,
                  continue_login := h.ret, attempts := s.attempts + 1,
                  stdin := stdin2, trace := s.trace ++ [status] }
            else
              some (LoginExit.returned 0,
                { username := h.username, password := h.password,
                  continue_login := h.ret, attempts := s.attempts + 1,
                  stdin := stdin2, trace := s.trace ++ [status] })
          else
            some (LoginExit.returned 1,
              { username := h.username, password := h.password,
                continue_login := h.ret, attempts := s.attempts,
                stdin := stdin2, trace := s.trace ++ [status] })
    else
      some (LoginExit.fellOffEnd, s)

/-- Function `int performLogin()`: both buffers start zeroed (`= {0}`), `continue_login`
is 1 and `attempts` is 0; then the loop runs on the given input. -/
def performLogin (fuel : Nat) (stdin : List Byte) : Option (LoginExit × LoginState) :=
  performLoginLoop fuel
    { username := List.replicate USERNAME_MAX_LENGTH 0,
      password := List.replicate PASSWORD_MAX_LENGTH 0,
      continue_login := 1, attempts := 0, stdin := stdin, trace := [] }

/-- What one evaluation of the loop condition of `performLogin` leads to: the
condition is evaluated `again` in a new state (the body ran to its end, or to
a `continue`), or the loop is `left` (by a `return`, or because the condition
was false). -/
inductive LoginPass where
  | again (s : LoginState)
  | left (exit : LoginExit) (s : LoginState)
deriving DecidableEq, Repr

/-- One evaluation of `continue_login && attempts < max_attempts` in state `s`,
followed by the loop body when it holds: the same code as one unfolding of
`performLoginLoop`. -/
def loginPass (s : LoginState) : LoginPass :=
  if s.continue_login ≠ 0 ∧ s.attempts < max_attempts then
    match safeGetLine s.username USERNAME_MAX_LENGTH s.stdin with
    | (none, stdin1) => LoginPass.again { s with stdin := stdin1 }
    | (some username, stdin1) =>
      match safeGetLine s.password PASSWORD_MAX_LENGTH stdin1 with
      | (none, stdin2) => LoginPass.again { s with username := username, stdin := stdin2 }
      | (some password, stdin2) =>
        let status := validateLogin (some username) (some password)
        let h := handleLoginStatus status username password
        if h.ret ≠ 0 then
          if s.attempts + 1 < max_attempts then
            LoginPass.again
              { username := h.username, password := h.password,
                continue_login := h.ret, attempts := s.attempts + 1,
                stdin := stdin2, trace := s.trace ++ [status] }
          else
            LoginPass.left (LoginExit.returned 0)
              { username := h.username, password := h.password,
                continue_login := h.ret, attempts := s.attempts + 1,
                stdin := stdin2, trace := s.trace ++ [status] }
        else
          LoginPass.left (LoginExit.returned 1)
            { username := h.username, password := h.password,
              continue_login := h.ret, attempts := s.attempts,
              stdin := stdin2, trace := s.trace ++ [status] }
  else
    LoginPass.left LoginExit.fellOffEnd s

/-- The state in which `performLogin` first evaluates its loop condition. -/
def loginStart (stdin : List Byte) : LoginState :=
  { username := List.replicate USERNAME_MAX_LENGTH 0,
    password := List.replicate PASSWORD_MAX_LENGTH 0,
    continue_login := 1, attempts := 0, stdin := stdin, trace := [] }

/-- The states in which `performLogin`, run on the input `stdin`, evaluates its
loop condition: the first one, and each one a pass leads to. -/
inductive LoopHead (stdin : List Byte) : LoginState → Prop where
  | start : LoopHead stdin (loginStart stdin)
  | next (s s' : LoginState) :
      LoopHead stdin s → loginPass s = LoginPass.again s' → LoopHead stdin s'

/-! ## Payroll calculator -/

/-- Macro `#define MIN_HOURS 0.0` -/
def MIN_HOURS : ℚ := 0

/-- Macro `#define STANDARD_HOURS 40.0` -/
def STANDARD_HOURS : ℚ := 40

/-- Macro `#define OVERTIME_THRESHOLD 50.0` -/
def OVERTIME_THRESHOLD : ℚ := 50

/-- Macro `#define MAX_HOURS 60.0` -/
def MAX_HOURS : ℚ := 60

/-- Macro `#define REDUCED_RATE 0.7` -/
def REDUCED_RATE : ℚ := 7 / 10

/-- Macro `#define OVERTIME_RATE 1.5` -/
def OVERTIME_RATE : ℚ := 3 / 2

/-- Macro `#define HEAVY_OVERTIME_RATE 3.0` -/
def HEAVY_OVERTIME_RATE : ℚ := 3

/-- Function `int validateHours(double hours)`:
`return (hours >= MIN_HOURS && hours <= MAX_HOURS);` -/
def validateHours (hours : ℚ) : Int :=
  if hours ≥ MIN_HOURS ∧ hours ≤ MAX_HOURS then 1 else 0

/-- Function `double calculateSalary(double hours, double rate)`. -/
def calculateSalary (hours rate : ℚ) : ℚ :=
  if hours < STANDARD_HOURS then
    hours * rate * REDUCED_RATE
  else if hours = STANDARD_HOURS then
    hours * rate
  else if hours ≤ OVERTIME_THRESHOLD then
    STANDARD_HOURS * rate + (hours - STANDARD_HOURS) * rate * OVERTIME_RATE
  else
    STANDARD_HOURS * rate
      + (OVERTIME_THRESHOLD - STANDARD_HOURS) * rate * OVERTIME_RATE
      + (hours - OVERTIME_THRESHOLD) * rate * HEAVY_OVERTIME_RATE

/-- The variant of `calculateSalary` that claim C12 compares it with: the
`hours == STANDARD_HOURS` branch is removed, so that 40 hours are paid by the
`hours <= OVERTIME_THRESHOLD` branch. -/
def calculateSalaryMerged (hours rate : ℚ) : ℚ :=
  if hours < STANDARD_HOURS then
    hours * rate * REDUCED_RATE
  else if hours ≤ OVERTIME_THRESHOLD then
    STANDARD_HOURS * rate + (hours - STANDARD_HOURS) * rate * OVERTIME_RATE
  else
    STANDARD_HOURS * rate
      + (OVERTIME_THRESHOLD - STANDARD_HOURS) * rate * OVERTIME_RATE
      + (hours - OVERTIME_THRESHOLD) * rate * HEAVY_OVERTIME_RATE

/-! ## Doubles read from the input -/

/-- A `double` as `sscanf` may store it: a number (exact, a rational), an
infinity, or NaN.  The values the program computes with are numbers; only a
value read from the input can be one of the others. -/
inductive Double where
  | finite (q : ℚ)
  | posInf
  | negInf
  | nan
deriving DecidableEq

/-- The comparison `a <= b` of two doubles (IEEE 754): false as soon as one
side is NaN. -/
def Double.le : Double → Double → Bool
  | Double.nan, _ => false
  | _, Double.nan => false
  | Double.negInf, _ => true
  | _, Double.posInf => true
  | Double.finite a, Double.finite b => decide (a ≤ b)
  | Double.posInf, Double.finite _ => false
  | Double.posInf, Double.negInf => false
  | Double.finite _, Double.negInf => false

/-- Function `validateHours` on a double that was read from the input:
`return (hours >= MIN_HOURS && hours <= MAX_HOURS);` with the comparisons of
`Double.le`.  On a number it is `validateHours`. -/
def validateHoursDouble (hours : Double) : Int :=
  if Double.le (Double.finite MIN_HOURS) hours = true
      ∧ Double.le hours (Double.finite MAX_HOURS) = true then 1 else 0

/-- The value of the call `calculateSalary(hours, hourlyRate)` on doubles read
from the input: `calculateSalary` when both are numbers; `none` when one is an
infinity or NaN, where the result is no number of exact arithmetic. -/
def calculateSalaryDouble (hours rate : Double) : Option ℚ :=
  match hours, rate with
  | Double.finite h, Double.finite r => some (calculateSalary h r)
  | _, _ => none

/-! ## Payroll prompt -/

/-- Function `getchar()` of `<stdio.h>`, its result unused: one byte of the input is
consumed, none at end of input. -/
def getchar (stdin : List Byte) : List Byte :=
  stdin.tail

/-- The local variables of `runSalaryCalculation` that its two loops use, and
the unread input.  The array `buffer[100]` is not initialised in the source; it
is only read after `fgets` has written it. -/
structure SalaryState where
  hours : Double
  hourlyRate : Double
  buffer : List Byte
  valid_input : Int
  stdin : List Byte

/-- The body of the first `do ... while (!valid_input)` loop of
`runSalaryCalculation`.  `scan buffer` stands for `sscanf(buffer, "%lf", &x)`:
`some v` when it returns 1 and stores `v`, `none` otherwise.  A `continue`
leaves `valid_input` as it is. -/
def hoursBody (scan : List Byte → Option Double) (st : SalaryState) : SalaryState :=
  match safeGetLine st.buffer 100 st.stdin with
  | (none, stdin1) => { st with stdin := stdin1 }
  | (some buffer, stdin1) =>
    match scan buffer with
    | none => { st with buffer := buffer, stdin := stdin1 }
    | some hours =>
      if validateHoursDouble hours = 0 then
        { st with hours := hours, buffer := buffer, stdin := stdin1 }
      else
        { st with hours := hours, buffer := buffer, stdin := stdin1, valid_input := 1 }

/-- The first `do ... while (!valid_input)` loop: the body, then the test.  One
unit of fuel pays for one pass; `none` means the fuel ran out. -/
def hoursLoop (scan : List Byte → Option Double) : Nat → SalaryState → Option SalaryState
  | 0, _ => none
  | fuel + 1, st =>
    if (hoursBody scan st).valid_input = 0 then hoursLoop scan fuel (hoursBody scan st)
    else some (hoursBody scan st)

/-- The body of the second `do ... while (!valid_input)` loop of
`runSalaryCalculation`, with the test `hourlyRate <= 0`. -/
def rateBody (scan : List Byte → Option Double) (st : SalaryState) : SalaryState :=
  match safeGetLine st.buffer 100 st.stdin with
  | (none, stdin1) => { st with stdin := stdin1 }
  | (some buffer, stdin1) =>
    match scan buffer with
    | none => { st with buffer := buffer, stdin := stdin1 }
    | some hourlyRate =>
      if Double.le hourlyRate (Double.finite 0) = true then
        { st with hourlyRate := hourlyRate, buffer := buffer, stdin := stdin1 }
      else
        { st with hourlyRate := hourlyRate, buffer := buffer, stdin := stdin1,
                  valid_input := 1 }

/-- The second `do ... while (!valid_input)` loop. -/
def rateLoop (scan : List Byte → Option Double) : Nat → SalaryState → Option SalaryState
  | 0, _ => none
  | fuel + 1, st =>
    if (rateBody scan st).valid_input = 0 then rateLoop scan fuel (rateBody scan st)
    else some (rateBody scan st)

/-- What `runSalaryCalculation` has done when it returns: the two arguments of
its call `calculateSalary(hours, hourlyRate)`, the value of the call, and the
input left after the final `getchar()`. -/
structure SalaryRun where
  hours : Double
  hourlyRate : Double
  salary : Option ℚ
  stdin : List Byte

/-- Function `void runSalaryCalculation()`: the hours loop, `valid_input = 0`, the rate
loop, the call of `calculateSalary`, and `getchar()`. -/
def runSalaryCalculation (scan : List Byte → Option Double) (fuel : Nat)
    (stdin : List Byte) : Option SalaryRun :=
  match hoursLoop scan fuel
      { hours := Double.finite 0, hourlyRate := Double.finite 0,
        buffer := List.replicate 100 0, valid_input := 0, stdin := stdin } with
  | none => none
  | some st1 =>
    match rateLoop scan fuel { st1 with valid_input := 0 } with
    | none => none
    | some st2 =>
      some { hours := st2.hours, hourlyRate := st2.hourlyRate,
             salary := calculateSalaryDouble st2.hours st2.hourlyRate,
             stdin := getchar st2.stdin }

/-! ## Menu -/

/-- Enumerator `MENU_EXIT = 0` -/
def MENU_EXIT : Int := 0

/-- Enumerator `MENU_SALARY_CALCULATION = 1` -/
def MENU_SALARY_CALCULATION : Int := 1

/-- Enumerator `MENU_ABOUT = 2` -/
def MENU_ABOUT : Int := 2

/-- Enumerator `MENU_INVALID = 3` -/
def MENU_INVALID : Int := 3

/-- Function `isspace` of `<ctype.h>` in the "C" locale: space, `\t`, `\n`, `\v`, `\f`,
`\r`. -/
def isspace (c : Byte) : Int :=
  if c.val = 32 ∨ (9 ≤ c.val ∧ c.val ≤ 13) then 1 else 0

/-- The white space `sscanf` skips before a `%d` conversion. -/
def skipSpaces : List Byte → List Byte
  | [] => []
  | c :: rest => if isspace c ≠ 0 then skipSpaces rest else c :: rest

/-- The value of the longest run of decimal digits at the start of the text,
continuing the value `acc` read so far. -/
def digitsValue (acc : Nat) : List Byte → Nat
  | [] => acc
  | c :: rest => if isdigit c ≠ 0 then digitsValue (acc * 10 + (c.val - 48)) rest else acc

/-- The result of `sscanf(buffer, "%d", &choice)`: `some n` when it returns 1 and
stores `n`, `none` when it stores nothing.  White space is skipped, then an
optional sign and at least one decimal digit are read.  The arrays of the
program hold at most 9 characters here, so the value read fits an `int`. -/
def sscanf_d (buffer : List Byte) : Option Int :=
  match skipSpaces buffer with
  | [] => none
  | c :: rest =>
    if c = 45 then
      if isdigit (rest.headD 0) ≠ 0 then some (-(digitsValue 0 rest : Int)) else none
    else if c = 43 then
      if isdigit (rest.headD 0) ≠ 0 then some (digitsValue 0 rest : Int) else none
    else if isdigit c ≠ 0 then some (digitsValue 0 (c :: rest) : Int)
    else none

/-- Function `MenuOption showMainMenu()`: the option chosen and the input left.  The
array `buffer[10]` is not initialised in the source; it is only read after
`fgets` has written it. -/
def showMainMenu (stdin : List Byte) : Int × List Byte :=
  match safeGetLine (List.replicate 10 0) 10 stdin with
  | (none, rest) => (MENU_EXIT, rest)
  | (some buffer, rest) =>
    match sscanf_d buffer with
    | none => (MENU_INVALID, rest)
    | some choice =>
      if choice < 0 ∨ choice > 2 then (MENU_INVALID, rest)
      else (choice, rest)

/-- The menu option the spec gives for the result of parsing the line as an
integer: exit for 0, payroll for 1, about for 2, invalid for any other integer
and for text that does not parse. -/
def menuOptionOf (parsed : Option Int) : Int :=
  match parsed with
  | none => MENU_INVALID
  | some n =>
    if n = 0 then MENU_EXIT
    else if n = 1 then MENU_SALARY_CALCULATION
    else if n = 2 then MENU_ABOUT
    else MENU_INVALID

/-- Function `void showAbout()`: it prints, then waits with `getchar()`. -/
def showAbout (stdin : List Byte) : List Byte :=
  getchar stdin

/-- The `do ... while (option != MENU_EXIT)` loop of `main`: the input left
when the loop ends.  One unit of fuel pays for one pass and for the loops of
`runSalaryCalculation` in it; `none` means the fuel ran out. -/
def menuLoop (scan : List Byte → Option Double) : Nat → List Byte → Option (List Byte)
  | 0, _ => none
  | fuel + 1, stdin =>
    let option := (showMainMenu stdin).1
    let stdin1 := (showMainMenu stdin).2
    let after : Option (List Byte) :=
      if option = MENU_SALARY_CALCULATION then
        (runSalaryCalculation scan fuel stdin1).map (fun r => r.stdin)
      else if option = MENU_ABOUT then some (showAbout stdin1)
      else some stdin1
    match after with
    | none => none
    | some stdin2 => if option ≠ MENU_EXIT then menuLoop scan fuel stdin2 else some stdin2

/-- Macro `EXIT_SUCCESS` of `<stdlib.h>`. -/
def EXIT_SUCCESS : Int := 0

/-- Macro `EXIT_FAILURE` of `<stdlib.h>`. -/
def EXIT_FAILURE : Int := 1

/-- How `main` ends: with an exit status, or with `login_success` taken from a
`performLogin` that reached the end of its body without a `return`. -/
inductive MainExit where
  | exited (status : Int)
  | undefinedLogin
deriving DecidableEq, Repr

/-- Function `int main(void)`. -/
def main (scan : List Byte → Option Double) (fuel : Nat) (stdin : List Byte) :
    Option MainExit :=
  match performLogin fuel stdin with
  | none => none
  | some (LoginExit.fellOffEnd, _) => some MainExit.undefinedLogin
  | some (LoginExit.returned login_success, s) =>
    if login_success = 0 then some (MainExit.exited EXIT_FAILURE)
    else
      match menuLoop scan fuel s.stdin with
      | none => none
      | some _ => some (MainExit.exited EXIT_SUCCESS)

/-- The statuses of the login attempts on a list of (username, password) line
pairs when each attempt is judged on its own two lines alone: `validateLogin`
of each pair in turn, up to and including the first `LOGIN_SUCCESS`. -/
def attemptStatuses : List (List Byte × List Byte) → List Int
  | [] => []
  | pair :: rest =>
    if validateLogin (some pair.1) (some pair.2) = LOGIN_SUCCESS then
      [validateLogin (some pair.1) (some pair.2)]
    else validateLogin (some pair.1) (some pair.2) :: attemptStatuses rest

/-- The input lines `ls`, each followed by a newline, as a byte stream. -/
def lines : List (List Byte) → List Byte
  | [] => []
  | l :: ls => l ++ 10 :: lines ls

/-- An ASCII letter: `A`..`Z` (65..90) or `a`..`z` (97..122). -/
def AsciiLetter (c : Byte) : Prop :=
  (65 ≤ c.val ∧ c.val ≤ 90) ∨ (97 ≤ c.val ∧ c.val ≤ 122)

/-- A decimal digit: `0`..`9` (48..57). -/
def DecimalDigit (c : Byte) : Prop :=
  48 ≤ c.val ∧ c.val ≤ 57

instance : DecidablePred AsciiLetter := fun c => by
  unfold AsciiLetter; infer_instance

instance : DecidablePred DecimalDigit := fun c => by
  unfold DecimalDigit; infer_instance

/-! ## Facts about the string functions -/

theorem cstr_nil_iff_headD (buf : List Byte) : cstr buf = [] ↔ buf.headD 0 = 0 := by
  cases buf with
  | nil => simp [cstr]
  | cons c rest =>
    by_cases h : c = 0 <;> simp [cstr, h]

theorem isEmpty_some_ne_zero (buf : List Byte) :
    isEmpty (some buf) ≠ 0 ↔ cstr buf = [] := by
  rw [cstr_nil_iff_headD]
  unfold isEmpty
  by_cases h : buf.headD 0 = 0 <;> simp [h]

theorem isAllLetters_eq_zero (buf : List Byte) :
    isAllLetters buf = 0 ↔ ¬ ∀ c ∈ cstr buf, AsciiLetter c := by
  induction buf with
  | nil => simp [isAllLetters, cstr]
  | cons c rest ih =>
    unfold isAllLetters cstr
    by_cases h0 : c = 0
    · simp [h0]
    · by_cases hl : AsciiLetter c
      · have : isalpha c ≠ 0 := by
          unfold isalpha; unfold AsciiLetter at hl; simp [hl]
        simp [h0, this, ih, hl]
      · have : isalpha c = 0 := by
          unfold isalpha; unfold AsciiLetter at hl; simp [hl]
        simp [h0, this, hl]

theorem isAllDigits_eq_zero (buf : List Byte) :
    isAllDigits buf = 0 ↔ ¬ ∀ c ∈ cstr buf, DecimalDigit c := by
  induction buf with
  | nil => simp [isAllDigits, cstr]
  | cons c rest ih =>
    unfold isAllDigits cstr
    by_cases h0 : c = 0
    · simp [h0]
    · by_cases hl : DecimalDigit c
      · have : isdigit c ≠ 0 := by
          unfold isdigit; unfold DecimalDigit at hl; simp [hl]
        simp [h0, this, ih, hl]
      · have : isdigit c = 0 := by
          unfold isdigit; unfold DecimalDigit at hl; simp [hl]
        simp [h0, this, hl]

theorem byte_sub_eq_zero (a b : Byte) : (a.val : Int) - (b.val : Int) = 0 ↔ a = b := by
  rw [← Fin.val_inj]; omega

theorem strcmp_eq_zero (a b : List Byte) : strcmp a b = 0 ↔ cstr a = cstr b := by
  induction a generalizing b with
  | nil =>
    cases b with
    | nil => simp [strcmp]
    | cons c2 r2 =>
      have h := byte_sub_eq_zero 0 c2
      simp only [Fin.val_zero, Nat.cast_zero] at h
      by_cases h2 : c2 = 0
      · simp [strcmp, cstr, h2]
      · have h3 : ¬ (0 : Byte) = c2 := fun e => h2 e.symm
        simp [strcmp, cstr, h2]
        intro e
        exact h2 (Fin.val_inj.mp (by simpa using e))
  | cons c1 r1 ih =>
    cases b with
    | nil =>
      by_cases h1 : c1 = 0
      · simp [strcmp, cstr, h1]
      · simp [strcmp, cstr, h1]
        intro e
        exact h1 (Fin.val_inj.mp (by simpa using e))
    | cons c2 r2 =>
      unfold strcmp cstr
      by_cases hne : c1 = c2
      · subst hne
        by_cases h1 : c1 = 0
        · simp [h1]
        · simp [h1, ih]
      · have hsub : ¬ ((c1.val : Int) - (c2.val : Int) = 0) :=
          (byte_sub_eq_zero c1 c2).not.mpr hne
        by_cases h1 : c1 = 0
        · subst h1
          have h2 : ¬ c2 = 0 := fun e => hne e.symm
          have h3 : ¬ ((c2.val : Int) = 0) := by simpa using hsub
          simpa [hne, h2] using h3
        · by_cases h2 : c2 = 0
          · subst h2
            have h3 : ¬ ((c1.val : Int) = 0) := by simpa using hsub
            simpa [hne, h1] using h3
          · simp [hne, h1, h2, hsub]

theorem cstr_VALID_USERNAME : cstr VALID_USERNAME = VALID_USERNAME := by decide

theorem cstr_VALID_PASSWORD : cstr VALID_PASSWORD = VALID_PASSWORD := by decide

theorem letters_VALID_USERNAME :
    ∀ c ∈ ([104, 103, 122, 121] : List Byte), AsciiLetter c := by
  intro c hc
  simp only [List.mem_cons, List.mem_singleton, List.not_mem_nil, or_false] at hc
  rcases hc with rfl | rfl | rfl | rfl <;> decide

theorem digits_VALID_PASSWORD :
    ∀ c ∈ ([49, 50, 51, 52] : List Byte), DecimalDigit c := by
  intro c hc
  simp only [List.mem_cons, List.mem_singleton, List.not_mem_nil, or_false] at hc
  rcases hc with rfl | rfl | rfl | rfl <;> decide

/-- The value of `validateLogin` on two arrays, in terms of the strings they hold. -/
theorem validateLogin_some (u p : List Byte) :
    validateLogin (some u) (some p) =
      if cstr u = [] ∨ cstr p = [] then LOGIN_ERROR_EMPTY
      else if ¬ ∀ c ∈ cstr u, AsciiLetter c then LOGIN_ERROR_INVALID_FORMAT
      else if ¬ ∀ c ∈ cstr p, DecimalDigit c then LOGIN_ERROR_INVALID_FORMAT
      else if cstr u ≠ VALID_USERNAME then LOGIN_ERROR_WRONG_USERNAME
      else if cstr p ≠ VALID_PASSWORD then LOGIN_ERROR_WRONG_PASSWORD
      else LOGIN_SUCCESS := by
  have hu : strcmp u VALID_USERNAME ≠ 0 ↔ cstr u ≠ VALID_USERNAME := by
    rw [Ne, strcmp_eq_zero, cstr_VALID_USERNAME]
  have hp : strcmp p VALID_PASSWORD ≠ 0 ↔ cstr p ≠ VALID_PASSWORD := by
    rw [Ne, strcmp_eq_zero, cstr_VALID_PASSWORD]
  simp only [validateLogin, pointee, isEmpty_some_ne_zero, isAllLetters_eq_zero,
    isAllDigits_eq_zero, hu, hp]

/-- A `NULL` argument makes `validateLogin` report empty input. -/
theorem validateLogin_none_left (p : Option (List Byte)) :
    validateLogin none p = LOGIN_ERROR_EMPTY := by
  simp [validateLogin, isEmpty]

theorem validateLogin_none_right (u : Option (List Byte)) :
    validateLogin u none = LOGIN_ERROR_EMPTY := by
  simp [validateLogin, isEmpty]

/-! ## Claims about `validateLogin` -/

set_option maxRecDepth 8000

/-- C1: `validateLogin` returns `LOGIN_SUCCESS` exactly when the username is
the string "hgzy" (bytes 104 103 122 121) and the password is the string "1234"
(bytes 49 50 51 52). -/
theorem validateLogin_success_iff (username password : Option (List Byte)) :
    validateLogin username password = LOGIN_SUCCESS ↔
      heldString username = some [104, 103, 122, 121] ∧
      heldString password = some [49, 50, 51, 52] := by
  cases username with
  | none => simp [validateLogin_none_left, heldString, LOGIN_SUCCESS, LOGIN_ERROR_EMPTY]
  | some u =>
    cases password with
    | none => simp [validateLogin_none_right, heldString, LOGIN_SUCCESS, LOGIN_ERROR_EMPTY]
    | some p =>
      simp only [heldString, Option.map_some', Option.some.injEq]
      constructor
      · intro h
        rw [validateLogin_some] at h
        split_ifs at h with h1 h2 h3 h4 h5 <;>
          simp [LOGIN_SUCCESS, LOGIN_ERROR_EMPTY, LOGIN_ERROR_INVALID_FORMAT,
            LOGIN_ERROR_WRONG_USERNAME, LOGIN_ERROR_WRONG_PASSWORD] at h
        exact ⟨not_not.mp h4, not_not.mp h5⟩
      · rintro ⟨hu, hp⟩
        rw [validateLogin_some, hu, hp]
        simp [VALID_USERNAME, VALID_PASSWORD, letters_VALID_USERNAME, digits_VALID_PASSWORD]

/-- C1, at the spec's example: `validateLogin("hgzy", "1234")` is `LOGIN_SUCCESS`. -/
theorem validateLogin_success_iff_witness :
    validateLogin (some [104, 103, 122, 121, 0]) (some [49, 50, 51, 52, 0]) = LOGIN_SUCCESS :=
  (validateLogin_success_iff (some [104, 103, 122, 121, 0]) (some [49, 50, 51, 52, 0])).mpr
    (by decide)

/-- C2: `validateLogin` returns `LOGIN_ERROR_EMPTY` exactly when the username
is absent (`NULL`) or zero-length, or the password is absent or zero-length;
nothing about the other field matters. -/
theorem validateLogin_empty_iff (username password : Option (List Byte)) :
    validateLogin username password = LOGIN_ERROR_EMPTY ↔
      (username = none ∨ heldString username = some []) ∨
      (password = none ∨ heldString password = some []) := by
  cases username with
  | none => simp [validateLogin_none_left]
  | some u =>
    cases password with
    | none => simp [validateLogin_none_right]
    | some p =>
      simp only [heldString, Option.map_some', Option.some.injEq, false_or]
      rw [validateLogin_some]
      split_ifs with h1 h2 h3 h4 h5 <;>
        simp_all [LOGIN_SUCCESS, LOGIN_ERROR_EMPTY, LOGIN_ERROR_INVALID_FORMAT,
          LOGIN_ERROR_WRONG_USERNAME, LOGIN_ERROR_WRONG_PASSWORD]

/-- C2, at the spec's examples: `("", "")` and `("hgzy", "")` are empty input,
and so is the ill-formed username "hgzy1" with an empty password. -/
theorem validateLogin_empty_iff_witness :
    validateLogin (some [0]) (some [0]) = LOGIN_ERROR_EMPTY ∧
    validateLogin (some [104, 103, 122, 121, 0]) (some [0]) = LOGIN_ERROR_EMPTY ∧
    validateLogin (some [104, 103, 122, 121, 49, 0]) (some [0]) = LOGIN_ERROR_EMPTY :=
  ⟨(validateLogin_empty_iff (some [0]) (some [0])).mpr (by decide),
   (validateLogin_empty_iff (some [104, 103, 122, 121, 0]) (some [0])).mpr (by decide),
   (validateLogin_empty_iff (some [104, 103, 122, 121, 49, 0]) (some [0])).mpr (by decide)⟩

/-- C3: for a non-empty username and a non-empty password, `validateLogin`
returns `LOGIN_ERROR_INVALID_FORMAT` exactly when the username has a character
that is not an ASCII letter or the password has a character that is not a
decimal digit. -/
theorem validateLogin_invalid_format_iff (username password : List Byte)
    (hu : cstr username ≠ []) (hp : cstr password ≠ []) :
    validateLogin (some username) (some password) = LOGIN_ERROR_INVALID_FORMAT ↔
      (∃ c ∈ cstr username, ¬ AsciiLetter c) ∨ (∃ c ∈ cstr password, ¬ DecimalDigit c) := by
  rw [validateLogin_some]
  split_ifs with h1 h2 h3 h4 h5 <;>
    simp_all [LOGIN_SUCCESS, LOGIN_ERROR_EMPTY, LOGIN_ERROR_INVALID_FORMAT,
      LOGIN_ERROR_WRONG_USERNAME, LOGIN_ERROR_WRONG_PASSWORD]

/-- C3, at the spec's examples: `("hgzy1", "1234")` and `("hgzy", "12a4")` are
both invalid format, although the other field is the valid credential. -/
theorem validateLogin_invalid_format_iff_witness :
    validateLogin (some [104, 103, 122, 121, 49, 0]) (some [49, 50, 51, 52, 0])
      = LOGIN_ERROR_INVALID_FORMAT ∧
    validateLogin (some [104, 103, 122, 121, 0]) (some [49, 50, 97, 52, 0])
      = LOGIN_ERROR_INVALID_FORMAT :=
  ⟨(validateLogin_invalid_format_iff [104, 103, 122, 121, 49, 0] [49, 50, 51, 52, 0]
      (by decide) (by decide)).mpr (Or.inl ⟨49, by decide, by decide⟩),
   (validateLogin_invalid_format_iff [104, 103, 122, 121, 0] [49, 50, 97, 52, 0]
      (by decide) (by decide)).mpr (Or.inr ⟨97, by decide, by decide⟩)⟩

/-- C4: for a non-empty all-letter username and a non-empty all-digit
password, `validateLogin` returns `LOGIN_ERROR_WRONG_USERNAME` exactly when the
username is not the string "hgzy" (bytes 104 103 122 121, compared byte for
byte, so case matters); the password plays no part. -/
theorem validateLogin_wrong_username_iff (username password : List Byte)
    (hu : cstr username ≠ []) (hul : ∀ c ∈ cstr username, AsciiLetter c)
    (hp : cstr password ≠ []) (hpd : ∀ c ∈ cstr password, DecimalDigit c) :
    validateLogin (some username) (some password) = LOGIN_ERROR_WRONG_USERNAME ↔
      cstr username ≠ [104, 103, 122, 121] := by
  rw [validateLogin_some]
  split_ifs with h1 h2 h3 <;>
    simp_all [LOGIN_SUCCESS, LOGIN_ERROR_EMPTY, LOGIN_ERROR_INVALID_FORMAT,
      LOGIN_ERROR_WRONG_USERNAME, LOGIN_ERROR_WRONG_PASSWORD, VALID_USERNAME]

/-- C4, at the spec's example: `("other", "1234")` is a wrong username although
the password is the valid one, and so is the upper-case `("HGZY", "1234")`. -/
theorem validateLogin_wrong_username_iff_witness :
    validateLogin (some [111, 116, 104, 101, 114, 0]) (some [49, 50, 51, 52, 0])
      = LOGIN_ERROR_WRONG_USERNAME ∧
    validateLogin (some [72, 71, 90, 89, 0]) (some [49, 50, 51, 52, 0])
      = LOGIN_ERROR_WRONG_USERNAME :=
  ⟨(validateLogin_wrong_username_iff [111, 116, 104, 101, 114, 0] [49, 50, 51, 52, 0]
      (by decide) (by decide) (by decide) (by decide)).mpr (by decide),
   (validateLogin_wrong_username_iff [72, 71, 90, 89, 0] [49, 50, 51, 52, 0]
      (by decide) (by decide) (by decide) (by decide)).mpr (by decide)⟩

/-- C5: `validateLogin` returns `LOGIN_ERROR_WRONG_PASSWORD` exactly when the
username is the string "hgzy" and the password is a non-empty string of decimal
digits other than "1234". -/
theorem validateLogin_wrong_password_iff (username password : Option (List Byte)) :
    validateLogin username password = LOGIN_ERROR_WRONG_PASSWORD ↔
      heldString username = some [104, 103, 122, 121] ∧
      ∃ s, heldString password = some s ∧ s ≠ [] ∧ (∀ c ∈ s, DecimalDigit c) ∧
        s ≠ [49, 50, 51, 52] := by
  cases username with
  | none =>
    simp [validateLogin_none_left, heldString, LOGIN_ERROR_EMPTY, LOGIN_ERROR_WRONG_PASSWORD]
  | some u =>
    cases password with
    | none =>
      simp [validateLogin_none_right, heldString, LOGIN_ERROR_EMPTY,
        LOGIN_ERROR_WRONG_PASSWORD]
    | some p =>
      simp only [heldString, Option.map_some', Option.some.injEq, exists_eq_left']
      constructor
      · intro h
        rw [validateLogin_some] at h
        split_ifs at h with h1 h2 h3 h4 h5 <;>
          simp [LOGIN_SUCCESS, LOGIN_ERROR_EMPTY, LOGIN_ERROR_INVALID_FORMAT,
            LOGIN_ERROR_WRONG_USERNAME, LOGIN_ERROR_WRONG_PASSWORD] at h
        exact ⟨not_not.mp h4, fun e => h1 (Or.inr e), h3, h5⟩
      · rintro ⟨hu, hne, hd, hw⟩
        rw [validateLogin_some, hu, if_neg (by simp [hne]),
          if_neg (not_not.mpr letters_VALID_USERNAME), if_neg (not_not.mpr hd),
          if_neg (by simp [VALID_USERNAME]), if_pos (by simpa [VALID_PASSWORD] using hw)]

/-- C5, at the spec's example: `validateLogin("hgzy", "9999")` is
`LOGIN_ERROR_WRONG_PASSWORD`. -/
theorem validateLogin_wrong_password_iff_witness :
    validateLogin (some [104, 103, 122, 121, 0]) (some [57, 57, 57, 57, 0])
      = LOGIN_ERROR_WRONG_PASSWORD :=
  (validateLogin_wrong_password_iff (some [104, 103, 122, 121, 0])
      (some [57, 57, 57, 57, 0])).mpr
    ⟨by decide, [57, 57, 57, 57], by decide, by decide, by decide, by decide⟩

/-! ## Claims about the payroll calculator -/

/-- C6: for `0 ≤ hours ≤ 60` and `rate > 0`, `calculateSalary` is the four-band
reference of the spec: `hours*rate*0.7` below 40, `hours*rate` at 40,
`40*rate + (hours-40)*rate*1.5` in `(40, 50]` and
`40*rate + 10*rate*1.5 + (hours-50)*rate*3.0` in `(50, 60]`
(exact arithmetic, 0.7 = 7/10 and 1.5 = 3/2). -/
theorem calculateSalary_four_bands (hours rate : ℚ)
    (_h0 : 0 ≤ hours) (_h60 : hours ≤ 60) (_hr : 0 < rate) :
    (hours < 40 → calculateSalary hours rate = hours * rate * (7 / 10)) ∧
    (hours = 40 → calculateSalary hours rate = hours * rate) ∧
    (40 < hours → hours ≤ 50 →
      calculateSalary hours rate = 40 * rate + (hours - 40) * rate * (3 / 2)) ∧
    (50 < hours → hours ≤ 60 →
      calculateSalary hours rate
        = 40 * rate + 10 * rate * (3 / 2) + (hours - 50) * rate * 3) := by
  unfold calculateSalary STANDARD_HOURS OVERTIME_THRESHOLD REDUCED_RATE OVERTIME_RATE
    HEAVY_OVERTIME_RATE
  refine ⟨?_, ?_, ?_, ?_⟩
  · intro h
    rw [if_pos h]
  · intro h
    rw [if_neg (by rw [h]; exact lt_irrefl _), if_pos h]
  · intro h40 h50
    rw [if_neg (not_lt.mpr h40.le), if_neg (ne_of_gt h40), if_pos h50]
  · intro h50 _
    have h40 : (40 : ℚ) < hours := lt_trans (by norm_num) h50
    rw [if_neg (not_lt.mpr h40.le), if_neg (ne_of_gt h40), if_neg (not_le.mpr h50)]
    norm_num

/-- C6, at the spec's examples: `(40, 10)` pays 400, `(39.999, 10)` pays
279.993, `(45, 10)` pays 475, `(55, 10)` pays 700, and the boundary `(50, 10)`
pays 550 by the third band. -/
theorem calculateSalary_four_bands_witness :
    calculateSalary 40 10 = 400 ∧
    calculateSalary (39999 / 1000) 10 = 279993 / 1000 ∧
    calculateSalary 45 10 = 475 ∧
    calculateSalary 55 10 = 700 ∧
    calculateSalary 50 10 = 550 :=
  ⟨((calculateSalary_four_bands 40 10 (by norm_num) (by norm_num) (by norm_num)).2.1
      rfl).trans (by norm_num),
   ((calculateSalary_four_bands (39999 / 1000) 10 (by norm_num) (by norm_num)
      (by norm_num)).1 (by norm_num)).trans (by norm_num),
   ((calculateSalary_four_bands 45 10 (by norm_num) (by norm_num) (by norm_num)).2.2.1
      (by norm_num) (by norm_num)).trans (by norm_num),
   ((calculateSalary_four_bands 55 10 (by norm_num) (by norm_num) (by norm_num)).2.2.2
      (by norm_num) (by norm_num)).trans (by norm_num),
   ((calculateSalary_four_bands 50 10 (by norm_num) (by norm_num) (by norm_num)).2.2.1
      (by norm_num) (by norm_num)).trans (by norm_num)⟩

/-- C7: `validateHours(hours)` is non-zero exactly when `0 ≤ hours ≤ 60`, both
ends included. -/
theorem validateHours_ne_zero_iff (hours : ℚ) :
    validateHours hours ≠ 0 ↔ 0 ≤ hours ∧ hours ≤ 60 := by
  unfold validateHours MIN_HOURS MAX_HOURS
  by_cases h : hours ≥ 0 ∧ hours ≤ 60
  · simp [h]
  · rw [if_neg h]
    simpa using h

/-- C7, at the spec's examples: 0 and 60 are accepted, -0.0001 and 60.0001 are
rejected. -/
theorem validateHours_ne_zero_iff_witness :
    validateHours 0 ≠ 0 ∧ validateHours 60 ≠ 0 ∧
    ¬ validateHours (-1 / 10000) ≠ 0 ∧ ¬ validateHours (600001 / 10000) ≠ 0 :=
  ⟨(validateHours_ne_zero_iff 0).mpr (by norm_num),
   (validateHours_ne_zero_iff 60).mpr (by norm_num),
   (validateHours_ne_zero_iff (-1 / 10000)).not.mpr (by norm_num),
   (validateHours_ne_zero_iff (600001 / 10000)).not.mpr (by norm_num)⟩

/-! ## Claims about `handleLoginStatus` -/

theorem cstr_set_zero (buf : List Byte) : cstr (buf.set 0 0) = [] := by
  cases buf <;> simp [cstr]

/-- C8: after `handleLoginStatus` with `LOGIN_ERROR_WRONG_USERNAME` both
buffers hold the empty string; after `LOGIN_ERROR_WRONG_PASSWORD` the username
buffer is untouched (so it holds the same string) and the password buffer holds
the empty string. -/
theorem handleLoginStatus_clears (username password : List Byte) :
    (cstr (handleLoginStatus LOGIN_ERROR_WRONG_USERNAME username password).username = [] ∧
     cstr (handleLoginStatus LOGIN_ERROR_WRONG_USERNAME username password).password = []) ∧
    ((handleLoginStatus LOGIN_ERROR_WRONG_PASSWORD username password).username = username ∧
     cstr (handleLoginStatus LOGIN_ERROR_WRONG_PASSWORD username password).username
       = cstr username ∧
     cstr (handleLoginStatus LOGIN_ERROR_WRONG_PASSWORD username password).password = []) := by
  simp [handleLoginStatus, LOGIN_SUCCESS, LOGIN_ERROR_EMPTY, LOGIN_ERROR_INVALID_FORMAT,
    LOGIN_ERROR_WRONG_USERNAME, LOGIN_ERROR_WRONG_PASSWORD, cstr_set_zero]

/-- C8, on the buffers holding "other" and "1234": both are emptied by a wrong
username; on "hgzy" and "9999" a wrong password keeps "hgzy" and empties the
password. -/
theorem handleLoginStatus_clears_witness :
    cstr (handleLoginStatus LOGIN_ERROR_WRONG_USERNAME [111, 116, 104, 101, 114, 0]
      [49, 50, 51, 52, 0]).username = [] ∧
    cstr (handleLoginStatus LOGIN_ERROR_WRONG_USERNAME [111, 116, 104, 101, 114, 0]
      [49, 50, 51, 52, 0]).password = [] ∧
    cstr (handleLoginStatus LOGIN_ERROR_WRONG_PASSWORD [104, 103, 122, 121, 0]
      [57, 57, 57, 57, 0]).username = [104, 103, 122, 121] ∧
    cstr (handleLoginStatus LOGIN_ERROR_WRONG_PASSWORD [104, 103, 122, 121, 0]
      [57, 57, 57, 57, 0]).password = [] :=
  ⟨(handleLoginStatus_clears [111, 116, 104, 101, 114, 0] [49, 50, 51, 52, 0]).1.1,
   (handleLoginStatus_clears [111, 116, 104, 101, 114, 0] [49, 50, 51, 52, 0]).1.2,
   ((handleLoginStatus_clears [104, 103, 122, 121, 0] [57, 57, 57, 57, 0]).2.2.1).trans
     (by decide),
   (handleLoginStatus_clears [104, 103, 122, 121, 0] [57, 57, 57, 57, 0]).2.2.2⟩

/-- C9: with status `LOGIN_SUCCESS`, `LOGIN_ERROR_EMPTY` or
`LOGIN_ERROR_INVALID_FORMAT`, `handleLoginStatus` leaves both buffers exactly
as they were. -/
theorem handleLoginStatus_keeps (status : Int) (username password : List Byte)
    (hs : status = LOGIN_SUCCESS ∨ status = LOGIN_ERROR_EMPTY ∨
      status = LOGIN_ERROR_INVALID_FORMAT) :
    (handleLoginStatus status username password).username = username ∧
    (handleLoginStatus status username password).password = password := by
  rcases hs with h | h | h <;> subst h <;>
    simp [handleLoginStatus, LOGIN_SUCCESS, LOGIN_ERROR_EMPTY, LOGIN_ERROR_INVALID_FORMAT]

/-- C9, on the buffers holding "hgzy1" and "1234" with status
`LOGIN_ERROR_INVALID_FORMAT`: both buffers are as before. -/
theorem handleLoginStatus_keeps_witness :
    (handleLoginStatus LOGIN_ERROR_INVALID_FORMAT [104, 103, 122, 121, 49, 0]
      [49, 50, 51, 52, 0]).username = [104, 103, 122, 121, 49, 0] ∧
    (handleLoginStatus LOGIN_ERROR_INVALID_FORMAT [104, 103, 122, 121, 49, 0]
      [49, 50, 51, 52, 0]).password = [49, 50, 51, 52, 0] :=
  handleLoginStatus_keeps LOGIN_ERROR_INVALID_FORMAT [104, 103, 122, 121, 49, 0]
    [49, 50, 51, 52, 0] (Or.inr (Or.inr rfl))

/-! ## Reading one line -/

theorem fgetsChars_line (l rest : List Byte) (n : Nat)
    (hnl : ∀ c ∈ l, c ≠ 10) (hlen : l.length < n) :
    fgetsChars n (l ++ 10 :: rest) = (l ++ [10], rest) := by
  induction l generalizing n with
  | nil =>
    cases n with
    | zero => simp at hlen
    | succ m => simp [fgetsChars]
  | cons c l ih =>
    cases n with
    | zero => simp at hlen
    | succ m =>
      have hc : c ≠ 10 := hnl c (List.mem_cons_self c l)
      have hl : ∀ d ∈ l, d ≠ 10 := fun d hd => hnl d (List.mem_cons_of_mem c hd)
      have hm : l.length < m := by simpa using hlen
      simp [fgetsChars, hc, ih m hl hm]

theorem fgets_line (buffer l rest : List Byte) (size : Nat)
    (hnl : ∀ c ∈ l, c ≠ 10) (hlen : l.length + 1 < size) :
    fgets buffer size (l ++ 10 :: rest)
      = (some (l ++ 10 :: 0 :: buffer.drop (l.length + 2)), rest) := by
  have h := fgetsChars_line l rest (size - 1) hnl (by omega)
  simp [fgets, h]

/-- With `c` neither NUL nor newline in front, the newline removal acts on the
rest of the array. -/
theorem stripNewline_cons (c : Byte) (b : List Byte) (h0 : c ≠ 0) (h10 : c ≠ 10) :
    stripNewline (c :: b) = c :: stripNewline b := by
  unfold stripNewline
  simp only [strlen, h0, if_false]
  cases hk : strlen b with
  | zero => simp [h10]
  | succ k =>
    simp only [Nat.add_sub_cancel, Nat.succ_pos, true_and, List.getD_cons_succ, List.set_cons_succ]
    split_ifs <;> rfl

theorem cstr_stripNewline_line (l t : List Byte) (hnl : ∀ c ∈ l, c ≠ 10) :
    cstr (stripNewline (l ++ 10 :: 0 :: t)) = cstr l := by
  induction l with
  | nil => simp [stripNewline, strlen, cstr]
  | cons c l ih =>
    have hc : c ≠ 10 := hnl c (List.mem_cons_self c l)
    have hl : ∀ d ∈ l, d ≠ 10 := fun d hd => hnl d (List.mem_cons_of_mem c hd)
    by_cases h0 : c = 0
    · subst h0
      simp [stripNewline, strlen, cstr]
    · rw [List.cons_append, stripNewline_cons c _ h0 hc]
      simp [cstr, h0, ih hl]

/-- Reading a line that fits the buffer: `safeGetLine` succeeds, the buffer
then holds the line (up to its first NUL byte), and the stream is past the
line's newline. -/
theorem safeGetLine_line (buffer l rest : List Byte) (size : Nat)
    (hnl : ∀ c ∈ l, c ≠ 10) (hlen : l.length + 1 < size) :
    ∃ buf, safeGetLine buffer size (l ++ 10 :: rest) = (some buf, rest) ∧
      cstr buf = cstr l := by
  refine ⟨stripNewline (l ++ 10 :: 0 :: buffer.drop (l.length + 2)), ?_, ?_⟩
  · simp [safeGetLine, fgets_line buffer l rest size hnl hlen]
  · exact cstr_stripNewline_line l _ hnl

theorem fgetsChars_eof (l : List Byte) (n : Nat)
    (hnl : ∀ c ∈ l, c ≠ 10) (hlen : l.length ≤ n) :
    fgetsChars n l = (l, []) := by
  induction l generalizing n with
  | nil => cases n <;> simp [fgetsChars]
  | cons c l ih =>
    cases n with
    | zero => simp at hlen
    | succ m =>
      have hc : c ≠ 10 := hnl c (List.mem_cons_self c l)
      have hl : ∀ d ∈ l, d ≠ 10 := fun d hd => hnl d (List.mem_cons_of_mem c hd)
      have hm : l.length ≤ m := by simpa using hlen
      simp [fgetsChars, hc, ih m hl hm]

theorem cstr_stripNewline_eof (l t : List Byte) (hnl : ∀ c ∈ l, c ≠ 10) :
    cstr (stripNewline (l ++ 0 :: t)) = cstr l := by
  induction l with
  | nil => simp [stripNewline, strlen, cstr]
  | cons c l ih =>
    have hc : c ≠ 10 := hnl c (List.mem_cons_self c l)
    have hl : ∀ d ∈ l, d ≠ 10 := fun d hd => hnl d (List.mem_cons_of_mem c hd)
    by_cases h0 : c = 0
    · subst h0
      simp [stripNewline, strlen, cstr]
    · rw [List.cons_append, stripNewline_cons c _ h0 hc]
      simp [cstr, h0, ih hl]

/-- Reading the last line of a stream that ends without a newline. -/
theorem safeGetLine_eof (buffer l : List Byte) (size : Nat)
    (hnl : ∀ c ∈ l, c ≠ 10) (hlen : l.length + 1 < size) (hne : l ≠ []) :
    ∃ buf, safeGetLine buffer size l = (some buf, []) ∧ cstr buf = cstr l := by
  have h := fgetsChars_eof l (size - 1) hnl (by omega)
  refine ⟨stripNewline (l ++ 0 :: buffer.drop (l.length + 1)), ?_, ?_⟩
  · simp [safeGetLine, fgets, h, hne]
  · exact cstr_stripNewline_eof l _ hnl

/-- Reading a line that fits the buffer and is ended by a newline or, when it
is not empty, by the end of the stream. -/
theorem safeGetLine_fit (buffer l tail : List Byte) (size : Nat)
    (hnl : ∀ c ∈ l, c ≠ 10) (hlen : l.length + 1 < size)
    (hend : (∃ rest, tail = 10 :: rest) ∨ (tail = [] ∧ l ≠ [])) :
    ∃ buf, safeGetLine buffer size (l ++ tail) = (some buf, tail.tail) ∧
      cstr buf = cstr l := by
  rcases hend with ⟨rest, rfl⟩ | ⟨rfl, hne⟩
  · exact safeGetLine_line buffer l rest size hnl hlen
  · simpa using safeGetLine_eof buffer l size hnl hlen hne

/-! ## The login loop -/

/-- The outcome of `validateLogin` depends only on the strings the two arrays hold. -/
theorem validateLogin_congr (u u' p p' : List Byte)
    (hu : cstr u = cstr u') (hp : cstr p = cstr p') :
    validateLogin (some u) (some p) = validateLogin (some u') (some p') := by
  rw [validateLogin_some, validateLogin_some, hu, hp]

theorem handleLoginStatus_ret_of_ne (status : Int) (u p : List Byte)
    (h : status ≠ LOGIN_SUCCESS) : (handleLoginStatus status u p).ret = 1 := by
  unfold handleLoginStatus
  split_ifs <;> first | rfl | contradiction

/-- One pass of the loop body in which both reads succeed and the pair read
does not validate: the attempt is counted, the status is logged, and the loop
either goes on or returns 0 at the limit. -/
theorem performLoginLoop_failed_attempt (fuel : Nat) (s : LoginState)
    (b1 b2 st1 st2 : List Byte)
    (hb1 : safeGetLine s.username 32 s.stdin = (some b1, st1))
    (hb2 : safeGetLine s.password 32 st1 = (some b2, st2))
    (hc : s.continue_login ≠ 0) (ha : s.attempts < 3)
    (hv : validateLogin (some b1) (some b2) ≠ LOGIN_SUCCESS) :
    ∃ u p, performLoginLoop (fuel + 1) s =
      if s.attempts + 1 < 3 then
        performLoginLoop fuel
          { username := u, password := p, continue_login := 1,
            attempts := s.attempts + 1, stdin := st2,
            trace := s.trace ++ [validateLogin (some b1) (some b2)] }
      else
        some (LoginExit.returned 0,
          { username := u, password := p, continue_login := 1,
            attempts := s.attempts + 1, stdin := st2,
            trace := s.trace ++ [validateLogin (some b1) (some b2)] }) := by
  have hret := handleLoginStatus_ret_of_ne (validateLogin (some b1) (some b2)) b1 b2 hv
  refine ⟨(handleLoginStatus (validateLogin (some b1) (some b2)) b1 b2).username,
    (handleLoginStatus (validateLogin (some b1) (some b2)) b1 b2).password, ?_⟩
  rw [performLoginLoop]
  simp only [max_attempts, USERNAME_MAX_LENGTH, PASSWORD_MAX_LENGTH, hb1, hb2, hret]
  simp [hc, ha]

/-- The same pass, for a stream that starts with two lines that fit the
buffers: the statuses are those of the two lines. -/
theorem performLoginLoop_failed_pair (fuel : Nat) (s : LoginState)
    (l1 l2 tail : List Byte)
    (h1 : ∀ c ∈ l1, c ≠ 10) (h1len : l1.length ≤ 30)
    (h2 : ∀ c ∈ l2, c ≠ 10) (h2len : l2.length ≤ 30)
    (hend : (∃ rest, tail = 10 :: rest) ∨ (tail = [] ∧ l2 ≠ []))
    (hc : s.continue_login ≠ 0) (ha : s.attempts < 3)
    (hs : s.stdin = l1 ++ 10 :: (l2 ++ tail))
    (hv : validateLogin (some l1) (some l2) ≠ LOGIN_SUCCESS) :
    ∃ u p, performLoginLoop (fuel + 1) s =
      if s.attempts + 1 < 3 then
        performLoginLoop fuel
          { username := u, password := p, continue_login := 1,
            attempts := s.attempts + 1, stdin := tail.tail,
            trace := s.trace ++ [validateLogin (some l1) (some l2)] }
      else
        some (LoginExit.returned 0,
          { username := u, password := p, continue_login := 1,
            attempts := s.attempts + 1, stdin := tail.tail,
            trace := s.trace ++ [validateLogin (some l1) (some l2)] }) := by
  obtain ⟨b1, hb1, hc1⟩ :=
    safeGetLine_line s.username l1 (l2 ++ tail) 32 h1 (by omega)
  obtain ⟨b2, hb2, hc2⟩ := safeGetLine_fit s.password l2 tail 32 h2 (by omega) hend
  have hst : validateLogin (some b1) (some b2) = validateLogin (some l1) (some l2) :=
    validateLogin_congr b1 l1 b2 l2 hc1 hc2
  rw [← hs] at hb1
  have h := performLoginLoop_failed_attempt fuel s b1 b2 _ _ hb1 hb2 hc ha (hst ▸ hv)
  rw [hst] at h
  exact h

/-! ## Claims about `performLogin` -/

/-- C10 as stated fails when a line does not fit the 32-byte buffer.  The
stream has the six lines `x`×31, "hgzy", "1234", "a", "a", "a"; its three
(username, password) line pairs all validate to a non-success outcome.  But
`fgets` takes only the 31 `x` of the first line, the password read gets the
rest of that line (nothing), and the second attempt reads "hgzy" and "1234":
`performLogin` returns 1 after two validations, and returns 0 for no fuel. -/
theorem performLogin_lockout_counterexample :
    validateLogin (some (List.replicate 31 120)) (some [104, 103, 122, 121])
      = LOGIN_ERROR_INVALID_FORMAT ∧
    validateLogin (some [49, 50, 51, 52]) (some [97]) = LOGIN_ERROR_INVALID_FORMAT ∧
    validateLogin (some [97]) (some [97]) = LOGIN_ERROR_INVALID_FORMAT ∧
    (∀ fuel, 2 ≤ fuel →
      (performLogin fuel (lines [List.replicate 31 120, [104, 103, 122, 121],
        [49, 50, 51, 52], [97], [97], [97]])).map (fun r => (r.1, r.2.trace, r.2.stdin))
      = some (LoginExit.returned 1, [LOGIN_ERROR_EMPTY, LOGIN_SUCCESS],
          [97, 10, 97, 10, 97, 10])) ∧
    (∀ fuel s,
      performLogin fuel (lines [List.replicate 31 120, [104, 103, 122, 121],
        [49, 50, 51, 52], [97], [97], [97]]) ≠ some (LoginExit.returned 0, s)) := by
  have key : ∀ n, (performLogin (n + 2) (lines [List.replicate 31 120, [104, 103, 122, 121],
        [49, 50, 51, 52], [97], [97], [97]])).map (fun r => (r.1, r.2.trace, r.2.stdin))
      = some (LoginExit.returned 1, [LOGIN_ERROR_EMPTY, LOGIN_SUCCESS],
          [97, 10, 97, 10, 97, 10]) := by
    intro n
    rfl
  refine ⟨by decide, by decide, by decide, ?_, ?_⟩
  · intro fuel hf
    obtain ⟨n, rfl⟩ : ∃ n, fuel = n + 2 := ⟨fuel - 2, by omega⟩
    exact key n
  · intro fuel s h
    match fuel, h with
    | 0, h => simp [performLogin, performLoginLoop] at h
    | 1, h =>
      have e : performLogin 1 (lines [List.replicate 31 120, [104, 103, 122, 121],
          [49, 50, 51, 52], [97], [97], [97]]) = none := by
        rfl
      rw [e] at h
      exact Option.noConfusion h
    | n + 2, h =>
      have k := key n
      rw [h] at k
      simp at k

/-- C10, amended: take a stream whose first six lines are each at most 30
bytes long (a line and its newline then fit one read into a 32-byte buffer),
the sixth ended by a newline or, if it is not empty, by the end of the stream.
If the three (username, password) line pairs each validate to a non-success
outcome, `performLogin` returns 0 given fuel for three passes; it has then
validated exactly those three pairs, counted three attempts, and the unread
input is everything after the sixth line, whatever it holds. -/
theorem performLogin_lockout (l1 l2 l3 l4 l5 l6 tail : List Byte) (fuel : Nat)
    (hfit : ∀ l ∈ [l1, l2, l3, l4, l5, l6], (∀ c ∈ l, c ≠ 10) ∧ l.length ≤ 30)
    (hend : (∃ rest, tail = 10 :: rest) ∨ (tail = [] ∧ l6 ≠ []))
    (hv1 : validateLogin (some l1) (some l2) ≠ LOGIN_SUCCESS)
    (hv2 : validateLogin (some l3) (some l4) ≠ LOGIN_SUCCESS)
    (hv3 : validateLogin (some l5) (some l6) ≠ LOGIN_SUCCESS)
    (hfuel : 3 ≤ fuel) :
    ∃ s, performLogin fuel (lines [l1, l2, l3, l4, l5] ++ (l6 ++ tail))
        = some (LoginExit.returned 0, s) ∧
      s.trace = [validateLogin (some l1) (some l2), validateLogin (some l3) (some l4),
        validateLogin (some l5) (some l6)] ∧
      s.stdin = tail.tail ∧ s.attempts = 3 := by
  obtain ⟨n, rfl⟩ : ∃ n, fuel = n + 3 := ⟨fuel - 3, by omega⟩
  have f1 := hfit l1 (by simp)
  have f2 := hfit l2 (by simp)
  have f3 := hfit l3 (by simp)
  have f4 := hfit l4 (by simp)
  have f5 := hfit l5 (by simp)
  have f6 := hfit l6 (by simp)
  obtain ⟨u1, p1, e1⟩ := performLoginLoop_failed_pair (n + 2)
    { username := List.replicate USERNAME_MAX_LENGTH 0,
      password := List.replicate PASSWORD_MAX_LENGTH 0,
      continue_login := 1, attempts := 0,
      stdin := lines [l1, l2, l3, l4, l5] ++ (l6 ++ tail), trace := [] }
    l1 l2 (10 :: (l3 ++ 10 :: (l4 ++ 10 :: (l5 ++ 10 :: (l6 ++ tail)))))
    f1.1 f1.2 f2.1 f2.2 (Or.inl ⟨_, rfl⟩) (by simp) (by simp) (by simp [lines]) hv1
  obtain ⟨u2, p2, e2⟩ := performLoginLoop_failed_pair (n + 1)
    { username := u1, password := p1, continue_login := 1, attempts := 0 + 1,
      stdin := l3 ++ 10 :: (l4 ++ 10 :: (l5 ++ 10 :: (l6 ++ tail))),
      trace := [] ++ [validateLogin (some l1) (some l2)] }
    l3 l4 (10 :: (l5 ++ 10 :: (l6 ++ tail)))
    f3.1 f3.2 f4.1 f4.2 (Or.inl ⟨_, rfl⟩) (by simp) (by simp) rfl hv2
  obtain ⟨u3, p3, e3⟩ := performLoginLoop_failed_pair n
    { username := u2, password := p2, continue_login := 1, attempts := 0 + 1 + 1,
      stdin := l5 ++ 10 :: (l6 ++ tail),
      trace := [] ++ [validateLogin (some l1) (some l2)]
        ++ [validateLogin (some l3) (some l4)] }
    l5 l6 tail f5.1 f5.2 f6.1 f6.2 hend (by simp) (by simp) rfl hv3
  simp only [List.tail_cons] at e1 e2 e3
  rw [if_pos (by norm_num)] at e1 e2
  rw [if_neg (by norm_num)] at e3
  refine ⟨LoginState.mk u3 p3 1 (0 + 1 + 1 + 1) tail.tail
      ([] ++ [validateLogin (some l1) (some l2)]
        ++ [validateLogin (some l3) (some l4)] ++ [validateLogin (some l5) (some l6)]),
    ?_, ?_, ?_, ?_⟩
  · unfold performLogin
    exact e1.trans (e2.trans e3)
  · simp
  · rfl
  · norm_num

/-- C10 amended, on the stream "other", "1234", "hgzy", "9999", "", "", "hgzy",
"1234" (one per line): the three first pairs are a wrong username, a wrong
password and an empty input; `performLogin` returns 0 and leaves the valid
credential pair that follows unread. -/
theorem performLogin_lockout_witness :
    ∃ s, performLogin 3 (lines [[111, 116, 104, 101, 114], [49, 50, 51, 52],
          [104, 103, 122, 121], [57, 57, 57, 57], []]
          ++ ([] ++ [10, 104, 103, 122, 121, 10, 49, 50, 51, 52, 10]))
        = some (LoginExit.returned 0, s) ∧
      s.trace = [validateLogin (some [111, 116, 104, 101, 114]) (some [49, 50, 51, 52]),
        validateLogin (some [104, 103, 122, 121]) (some [57, 57, 57, 57]),
        validateLogin (some []) (some [])] ∧
      s.stdin = [10, 104, 103, 122, 121, 10, 49, 50, 51, 52, 10].tail ∧ s.attempts = 3 :=
  performLogin_lockout [111, 116, 104, 101, 114] [49, 50, 51, 52]
    [104, 103, 122, 121] [57, 57, 57, 57] [] []
    [10, 104, 103, 122, 121, 10, 49, 50, 51, 52, 10] 3
    (by decide) (Or.inl ⟨_, rfl⟩) (by decide) (by decide) (by decide) (by decide)

/-! ## Further claims about `calculateSalary` -/

/-- C12: at 40 hours the equality branch and the overtime formula agree,
`40*rate = 40*rate + (40-40)*rate*1.5`, and so `calculateSalary` equals, for
every hours and rate, the variant without the `hours == 40` branch (exact
arithmetic). -/
theorem calculateSalary_eq_merged (hours rate : ℚ) :
    (40 * rate = 40 * rate + (40 - 40) * rate * (3 / 2)) ∧
    calculateSalary hours rate = calculateSalaryMerged hours rate := by
  refine ⟨by ring, ?_⟩
  unfold calculateSalary calculateSalaryMerged STANDARD_HOURS OVERTIME_THRESHOLD
    OVERTIME_RATE
  by_cases h1 : hours < 40
  · rw [if_pos h1, if_pos h1]
  · rw [if_neg h1, if_neg h1]
    by_cases h2 : hours = 40
    · rw [if_pos h2, if_pos (by rw [h2]; norm_num), h2]
      ring
    · rw [if_neg h2]

/-- C12, at 40 hours and rate 10: both functions pay 400. -/
theorem calculateSalary_eq_merged_witness :
    calculateSalary 40 10 = calculateSalaryMerged 40 10 ∧
    calculateSalaryMerged 40 10 = 400 :=
  ⟨(calculateSalary_eq_merged 40 10).2, by
    unfold calculateSalaryMerged STANDARD_HOURS OVERTIME_THRESHOLD OVERTIME_RATE
    norm_num⟩

/-- C18: for `rate > 0`, `calculateSalary` is strictly increasing in hours on
`[0, 60]`, across the band boundaries at 40 and 50 as well (exact arithmetic). -/
theorem calculateSalary_strictMono (h1 h2 rate : ℚ) (hr : 0 < rate)
    (h0 : 0 ≤ h1) (hlt : h1 < h2) (_h60 : h2 ≤ 60) :
    calculateSalary h1 rate < calculateSalary h2 rate := by
  have hd : 0 < (h2 - h1) * rate := mul_pos (sub_pos.mpr hlt) hr
  have hp : 0 ≤ h1 * rate := mul_nonneg h0 hr.le
  unfold calculateSalary STANDARD_HOURS OVERTIME_THRESHOLD REDUCED_RATE OVERTIME_RATE
    HEAVY_OVERTIME_RATE
  split_ifs <;> nlinarith

/-- C18, across the two band boundaries at rate 10: 39 < 40 < 41 hours and
50 < 51 hours. -/
theorem calculateSalary_strictMono_witness :
    calculateSalary 39 10 < calculateSalary 40 10 ∧
    calculateSalary 40 10 < calculateSalary 41 10 ∧
    calculateSalary 50 10 < calculateSalary 51 10 :=
  ⟨calculateSalary_strictMono 39 40 10 (by norm_num) (by norm_num) (by norm_num)
      (by norm_num),
   calculateSalary_strictMono 40 41 10 (by norm_num) (by norm_num) (by norm_num)
      (by norm_num),
   calculateSalary_strictMono 50 51 10 (by norm_num) (by norm_num) (by norm_num)
      (by norm_num)⟩

/-- C19: for `rate > 0`, on `0 ≤ hours ≤ 60` the pay lies between 0 and
`85*rate`, with `calculateSalary(0, rate) = 0` and
`calculateSalary(60, rate) = 85*rate`; below 40 hours it is strictly less than
`28*rate`, and at 40 hours it is exactly `40*rate` (exact arithmetic). -/
theorem calculateSalary_bounds (hours rate : ℚ) (hr : 0 < rate) :
    (0 ≤ hours → hours ≤ 60 →
      0 ≤ calculateSalary hours rate ∧ calculateSalary hours rate ≤ 85 * rate) ∧
    calculateSalary 0 rate = 0 ∧
    calculateSalary 60 rate = 85 * rate ∧
    (hours < 40 → calculateSalary hours rate < 28 * rate) ∧
    calculateSalary 40 rate = 40 * rate := by
  unfold calculateSalary STANDARD_HOURS OVERTIME_THRESHOLD REDUCED_RATE OVERTIME_RATE
    HEAVY_OVERTIME_RATE
  refine ⟨?_, ?_, ?_, ?_, ?_⟩
  · intro h0 h60
    have hp : 0 ≤ hours * rate := mul_nonneg h0 hr.le
    have hq : 0 ≤ (60 - hours) * rate := mul_nonneg (sub_nonneg.mpr h60) hr.le
    split_ifs with a b c
    · have : 0 ≤ (40 - hours) * rate := mul_nonneg (sub_nonneg.mpr a.le) hr.le
      constructor <;> nlinarith
    · constructor <;> nlinarith
    · have : 0 ≤ (hours - 40) * rate := mul_nonneg (sub_nonneg.mpr (not_lt.mp a)) hr.le
      constructor <;> nlinarith
    · have : 0 ≤ (hours - 50) * rate :=
        mul_nonneg (sub_nonneg.mpr (not_le.mp c).le) hr.le
      constructor <;> nlinarith
  · norm_num
  · norm_num
    ring
  · intro h
    rw [if_pos h]
    have : 0 < (40 - hours) * rate := mul_pos (sub_pos.mpr h) hr
    nlinarith
  · norm_num

/-- C19, at rate 10: 30 hours pay 210, which is between 0 and 850 and below
280; 0 hours pay 0, 60 hours pay 850, 40 hours pay 400. -/
theorem calculateSalary_bounds_witness :
    (0 ≤ calculateSalary 30 10 ∧ calculateSalary 30 10 ≤ 85 * 10) ∧
    calculateSalary 0 10 = 0 ∧
    calculateSalary 60 10 = 85 * 10 ∧
    calculateSalary 30 10 < 28 * 10 ∧
    calculateSalary 40 10 = 40 * 10 :=
  ⟨(calculateSalary_bounds 30 10 (by norm_num)).1 (by norm_num) (by norm_num),
   (calculateSalary_bounds 30 10 (by norm_num)).2.1,
   (calculateSalary_bounds 30 10 (by norm_num)).2.2.1,
   (calculateSalary_bounds 30 10 (by norm_num)).2.2.2.1 (by norm_num),
   (calculateSalary_bounds 30 10 (by norm_num)).2.2.2.2⟩

/-! ## Success of the login -/

theorem validateLogin_some_success (u p : List Byte) :
    validateLogin (some u) (some p) = LOGIN_SUCCESS ↔
      cstr u = [104, 103, 122, 121] ∧ cstr p = [49, 50, 51, 52] := by
  constructor
  · intro h
    rw [validateLogin_some] at h
    split_ifs at h with h1 h2 h3 h4 h5 <;>
      simp [LOGIN_SUCCESS, LOGIN_ERROR_EMPTY, LOGIN_ERROR_INVALID_FORMAT,
        LOGIN_ERROR_WRONG_USERNAME, LOGIN_ERROR_WRONG_PASSWORD] at h
    exact ⟨not_not.mp h4, not_not.mp h5⟩
  · rintro ⟨hu, hp⟩
    rw [validateLogin_some, hu, hp]
    simp [VALID_USERNAME, VALID_PASSWORD, letters_VALID_USERNAME, digits_VALID_PASSWORD]

/-- One pass of the loop body over two lines that fit the buffers and
validate: `performLogin` returns 1 without counting an attempt. -/
theorem performLoginLoop_success_pair (fuel : Nat) (s : LoginState)
    (l1 l2 tail : List Byte)
    (h1 : ∀ c ∈ l1, c ≠ 10) (h1len : l1.length ≤ 30)
    (h2 : ∀ c ∈ l2, c ≠ 10) (h2len : l2.length ≤ 30)
    (hend : (∃ rest, tail = 10 :: rest) ∨ (tail = [] ∧ l2 ≠ []))
    (hc : s.continue_login ≠ 0) (ha : s.attempts < 3)
    (hs : s.stdin = l1 ++ 10 :: (l2 ++ tail))
    (hv : validateLogin (some l1) (some l2) = LOGIN_SUCCESS) :
    ∃ u p, performLoginLoop (fuel + 1) s =
      some (LoginExit.returned 1,
        { username := u, password := p, continue_login := 0,
          attempts := s.attempts, stdin := tail.tail,
          trace := s.trace ++ [validateLogin (some l1) (some l2)] }) := by
  obtain ⟨b1, hb1, hc1⟩ :=
    safeGetLine_line s.username l1 (l2 ++ tail) 32 h1 (by omega)
  obtain ⟨b2, hb2, hc2⟩ := safeGetLine_fit s.password l2 tail 32 h2 (by omega) hend
  have hst : validateLogin (some b1) (some b2) = validateLogin (some l1) (some l2) :=
    validateLogin_congr b1 l1 b2 l2 hc1 hc2
  rw [← hs] at hb1
  refine ⟨b1, b2, ?_⟩
  rw [performLoginLoop]
  simp only [max_attempts, USERNAME_MAX_LENGTH, PASSWORD_MAX_LENGTH, hb1, hb2, hst, hv]
  simp [hc, ha, handleLoginStatus, LOGIN_SUCCESS]

/-- C11: take a stream whose first six lines each fit a 32-byte buffer together
with their newline (at most 30 bytes), the sixth ended by a newline or, if it
is not empty, by the end of the stream.  Given fuel for three passes,
`performLogin` returns 0 or 1, and it returns 1 exactly when one of the first
three (username, password) line pairs is ("hgzy", "1234"), each line read as
the C string it holds.  The statuses of its attempts are those of the line
pairs judged each on its own (`attemptStatuses`): what an earlier attempt left
in the buffers plays no part. -/
theorem performLogin_success_iff (l1 l2 l3 l4 l5 l6 tail : List Byte) (fuel : Nat)
    (hfit : ∀ l ∈ [l1, l2, l3, l4, l5, l6], (∀ c ∈ l, c ≠ 10) ∧ l.length ≤ 30)
    (hend : (∃ rest, tail = 10 :: rest) ∨ (tail = [] ∧ l6 ≠ []))
    (hfuel : 3 ≤ fuel) :
    ∃ r s, performLogin fuel (lines [l1, l2, l3, l4, l5] ++ (l6 ++ tail))
        = some (LoginExit.returned r, s) ∧
      (r = 0 ∨ r = 1) ∧
      (r = 1 ↔
        (cstr l1 = [104, 103, 122, 121] ∧ cstr l2 = [49, 50, 51, 52]) ∨
        (cstr l3 = [104, 103, 122, 121] ∧ cstr l4 = [49, 50, 51, 52]) ∨
        (cstr l5 = [104, 103, 122, 121] ∧ cstr l6 = [49, 50, 51, 52])) ∧
      s.trace = attemptStatuses [(l1, l2), (l3, l4), (l5, l6)] := by
  obtain ⟨n, rfl⟩ : ∃ n, fuel = n + 3 := ⟨fuel - 3, by omega⟩
  have f1 := hfit l1 (by simp)
  have f2 := hfit l2 (by simp)
  have f3 := hfit l3 (by simp)
  have f4 := hfit l4 (by simp)
  have f5 := hfit l5 (by simp)
  have f6 := hfit l6 (by simp)
  simp only [← validateLogin_some_success]
  unfold performLogin
  by_cases hv1 : validateLogin (some l1) (some l2) = LOGIN_SUCCESS
  · obtain ⟨u1, p1, e1⟩ := performLoginLoop_success_pair (n + 2)
      { username := List.replicate USERNAME_MAX_LENGTH 0,
        password := List.replicate PASSWORD_MAX_LENGTH 0,
        continue_login := 1, attempts := 0,
        stdin := lines [l1, l2, l3, l4, l5] ++ (l6 ++ tail), trace := [] }
      l1 l2 (10 :: (l3 ++ 10 :: (l4 ++ 10 :: (l5 ++ 10 :: (l6 ++ tail)))))
      f1.1 f1.2 f2.1 f2.2 (Or.inl ⟨_, rfl⟩) (by simp) (by simp) (by simp [lines]) hv1
    exact ⟨1, _, e1, Or.inr rfl, by simp [hv1], by simp [attemptStatuses, hv1]⟩
  · obtain ⟨u1, p1, e1⟩ := performLoginLoop_failed_pair (n + 2)
      { username := List.replicate USERNAME_MAX_LENGTH 0,
        password := List.replicate PASSWORD_MAX_LENGTH 0,
        continue_login := 1, attempts := 0,
        stdin := lines [l1, l2, l3, l4, l5] ++ (l6 ++ tail), trace := [] }
      l1 l2 (10 :: (l3 ++ 10 :: (l4 ++ 10 :: (l5 ++ 10 :: (l6 ++ tail)))))
      f1.1 f1.2 f2.1 f2.2 (Or.inl ⟨_, rfl⟩) (by simp) (by simp) (by simp [lines]) hv1
    simp only [List.tail_cons] at e1
    rw [if_pos (by norm_num)] at e1
    by_cases hv2 : validateLogin (some l3) (some l4) = LOGIN_SUCCESS
    · obtain ⟨u2, p2, e2⟩ := performLoginLoop_success_pair (n + 1)
        { username := u1, password := p1, continue_login := 1, attempts := 0 + 1,
          stdin := l3 ++ 10 :: (l4 ++ 10 :: (l5 ++ 10 :: (l6 ++ tail))),
          trace := [] ++ [validateLogin (some l1) (some l2)] }
        l3 l4 (10 :: (l5 ++ 10 :: (l6 ++ tail)))
        f3.1 f3.2 f4.1 f4.2 (Or.inl ⟨_, rfl⟩) (by simp) (by simp) rfl hv2
      exact ⟨1, _, e1.trans e2, Or.inr rfl, by simp [hv2],
        by simp [attemptStatuses, hv1, hv2]⟩
    · obtain ⟨u2, p2, e2⟩ := performLoginLoop_failed_pair (n + 1)
        { username := u1, password := p1, continue_login := 1, attempts := 0 + 1,
          stdin := l3 ++ 10 :: (l4 ++ 10 :: (l5 ++ 10 :: (l6 ++ tail))),
          trace := [] ++ [validateLogin (some l1) (some l2)] }
        l3 l4 (10 :: (l5 ++ 10 :: (l6 ++ tail)))
        f3.1 f3.2 f4.1 f4.2 (Or.inl ⟨_, rfl⟩) (by simp) (by simp) rfl hv2
      simp only [List.tail_cons] at e2
      rw [if_pos (by norm_num)] at e2
      by_cases hv3 : validateLogin (some l5) (some l6) = LOGIN_SUCCESS
      · obtain ⟨u3, p3, e3⟩ := performLoginLoop_success_pair n
          { username := u2, password := p2, continue_login := 1, attempts := 0 + 1 + 1,
            stdin := l5 ++ 10 :: (l6 ++ tail),
            trace := [] ++ [validateLogin (some l1) (some l2)]
              ++ [validateLogin (some l3) (some l4)] }
          l5 l6 tail f5.1 f5.2 f6.1 f6.2 hend (by simp) (by simp) rfl hv3
        exact ⟨1, _, e1.trans (e2.trans e3), Or.inr rfl, by simp [hv3],
          by simp [attemptStatuses, hv1, hv2, hv3]⟩
      · obtain ⟨u3, p3, e3⟩ := performLoginLoop_failed_pair n
          { username := u2, password := p2, continue_login := 1, attempts := 0 + 1 + 1,
            stdin := l5 ++ 10 :: (l6 ++ tail),
            trace := [] ++ [validateLogin (some l1) (some l2)]
              ++ [validateLogin (some l3) (some l4)] }
          l5 l6 tail f5.1 f5.2 f6.1 f6.2 hend (by simp) (by simp) rfl hv3
        rw [if_neg (by norm_num)] at e3
        exact ⟨0, _, e1.trans (e2.trans e3), Or.inl rfl, by simp [hv1, hv2, hv3],
          by simp [attemptStatuses, hv1, hv2, hv3]⟩

/-- C11, on the stream "other", "1234", "hgzy", "1234", "x", "1" (one per
line): the second pair is the valid credential, `performLogin` returns 1, and
the two attempts made have the statuses wrong username and success. -/
theorem performLogin_success_iff_witness :
    ∃ s, performLogin 3 (lines [[111, 116, 104, 101, 114], [49, 50, 51, 52],
          [104, 103, 122, 121], [49, 50, 51, 52], [120]] ++ ([49] ++ [10]))
        = some (LoginExit.returned 1, s) ∧
      s.trace = [LOGIN_ERROR_WRONG_USERNAME, LOGIN_SUCCESS] := by
  obtain ⟨r, s, h, _, hr, ht⟩ := performLogin_success_iff [111, 116, 104, 101, 114]
    [49, 50, 51, 52] [104, 103, 122, 121] [49, 50, 51, 52] [120] [49] [10] 3
    (by decide) (Or.inl ⟨_, rfl⟩) (by decide)
  have h1 : r = 1 := hr.mpr (Or.inr (Or.inl ⟨by decide, by decide⟩))
  subst h1
  exact ⟨s, h, ht.trans (by decide)⟩

/-! ## The loop of `performLogin`, pass by pass -/

theorem performLoginLoop_succ (fuel : Nat) (s : LoginState) :
    performLoginLoop (fuel + 1) s =
      match loginPass s with
      | LoginPass.again s' => performLoginLoop fuel s'
      | LoginPass.left e s' => some (e, s') := by
  rw [performLoginLoop]
  unfold loginPass
  by_cases hc : s.continue_login ≠ 0 ∧ s.attempts < max_attempts
  · rw [if_pos hc, if_pos hc]
    rcases h1 : safeGetLine s.username USERNAME_MAX_LENGTH s.stdin with ⟨_ | b1, st1⟩
    · rfl
    · dsimp only
      rcases h2 : safeGetLine s.password PASSWORD_MAX_LENGTH st1 with ⟨_ | b2, st2⟩
      · rfl
      · dsimp only
        split_ifs <;> rfl
  · rw [if_neg hc, if_neg hc]

theorem performLogin_eq_loop (fuel : Nat) (stdin : List Byte) :
    performLogin fuel stdin = performLoginLoop fuel (loginStart stdin) := rfl

theorem handleLoginStatus_ret_cases (status : Int) (u p : List Byte) :
    (handleLoginStatus status u p).ret = 0 ∨ (handleLoginStatus status u p).ret = 1 := by
  unfold handleLoginStatus
  split_ifs <;> simp

/-- One pass from a state with `continue_login = 1` and `0 ≤ attempts < 3`
leads to another such state or to one of the two `return` statements. -/
theorem loginPass_invariant (s : LoginState)
    (hinv : s.continue_login = 1 ∧ 0 ≤ s.attempts ∧ s.attempts < 3) :
    match loginPass s with
    | LoginPass.again s' => s'.continue_login = 1 ∧ 0 ≤ s'.attempts ∧ s'.attempts < 3
    | LoginPass.left e _ => e = LoginExit.returned 0 ∨ e = LoginExit.returned 1 := by
  obtain ⟨h1, h2, h3⟩ := hinv
  have hc : s.continue_login ≠ 0 ∧ s.attempts < max_attempts := by
    rw [h1]
    exact ⟨by norm_num, h3⟩
  unfold loginPass
  rw [if_pos hc]
  rcases hg1 : safeGetLine s.username USERNAME_MAX_LENGTH s.stdin with ⟨_ | b1, st1⟩
  · exact ⟨h1, h2, h3⟩
  · dsimp only
    rcases hg2 : safeGetLine s.password PASSWORD_MAX_LENGTH st1 with ⟨_ | b2, st2⟩
    · exact ⟨h1, h2, h3⟩
    · dsimp only
      rcases handleLoginStatus_ret_cases (validateLogin (some b1) (some b2)) b1 b2
        with hr | hr
      · rw [if_neg (by rw [hr]; simp)]
        exact Or.inr rfl
      · rw [if_pos (by rw [hr]; norm_num)]
        by_cases ha : s.attempts + 1 < max_attempts
        · rw [if_pos ha]
          exact ⟨hr, show (0 : Int) ≤ s.attempts + 1 by omega, ha⟩
        · rw [if_neg ha]
          exact Or.inl rfl

theorem loopHead_invariant (stdin : List Byte) (s : LoginState) (h : LoopHead stdin s) :
    s.continue_login = 1 ∧ 0 ≤ s.attempts ∧ s.attempts < 3 := by
  induction h with
  | start => exact ⟨rfl, le_refl _, show (0 : Int) < 3 by norm_num⟩
  | next s s' _ hp ih =>
    have := loginPass_invariant s ih
    rw [hp] at this
    exact this

theorem performLoginLoop_returns (fuel : Nat) (s : LoginState)
    (hinv : s.continue_login = 1 ∧ 0 ≤ s.attempts ∧ s.attempts < 3)
    (e : LoginExit) (s' : LoginState) (h : performLoginLoop fuel s = some (e, s')) :
    e = LoginExit.returned 0 ∨ e = LoginExit.returned 1 := by
  induction fuel generalizing s with
  | zero => simp [performLoginLoop] at h
  | succ n ih =>
    rw [performLoginLoop_succ] at h
    have hp := loginPass_invariant s hinv
    cases hq : loginPass s with
    | again t =>
      rw [hq] at h hp
      exact ih t hp h
    | left e' t =>
      rw [hq] at h hp
      simp only [Option.some.injEq, Prod.mk.injEq] at h
      rw [← h.1]
      exact hp

theorem safeGetLine_nil (buffer : List Byte) (size : Nat) :
    safeGetLine buffer size [] = (none, []) := by
  simp [safeGetLine, fgets]

/-- At end of input a pass of the login loop changes nothing: the read fails,
no attempt is counted, and the condition is evaluated again in the same state. -/
theorem loginPass_end_of_input (s : LoginState) (hs : s.stdin = [])
    (hc : s.continue_login ≠ 0) (ha : s.attempts < 3) :
    loginPass s = LoginPass.again s := by
  unfold loginPass
  rw [if_pos ⟨hc, ha⟩, hs, safeGetLine_nil]
  dsimp only
  rw [← hs]

theorem performLoginLoop_end_of_input (fuel : Nat) (s : LoginState) (hs : s.stdin = [])
    (hc : s.continue_login ≠ 0) (ha : s.attempts < 3) :
    performLoginLoop fuel s = none := by
  induction fuel with
  | zero => rfl
  | succ n ih => rw [performLoginLoop_succ, loginPass_end_of_input s hs hc ha]; exact ih

/-! ## Claims about the control flow of `performLogin` -/

/-- C14 fails on the code: at end of input `performLogin` never returns.  On
the empty stream, and on the stream "hgzy" followed by a newline and nothing
else (the input ends while the password is read), the loop is still running
whatever the fuel: a failed read does `continue` without counting an attempt. -/
theorem performLogin_spins_at_end_of_input :
    (∀ fuel, performLogin fuel [] = none) ∧
    (∀ fuel, performLogin fuel [104, 103, 122, 121, 10] = none) := by
  constructor
  · intro fuel
    exact performLoginLoop_end_of_input fuel _ rfl (by decide) (by decide)
  · intro fuel
    cases fuel with
    | zero => rfl
    | succ n =>
      rw [performLogin_eq_loop, performLoginLoop_succ]
      have hp : loginPass (loginStart [104, 103, 122, 121, 10]) =
          LoginPass.again { loginStart [] with
            username := [104, 103, 122, 121, 0, 0] ++ List.replicate 26 0 } := by
        decide
      rw [hp]
      exact performLoginLoop_end_of_input n _ rfl (by decide) (by decide)

/-- C17: whenever `performLogin` evaluates its loop condition,
`continue_login = 1` and `0 ≤ attempts < 3` hold; a pass from such a state
leaves the loop only through `return 0` or `return 1`; hence `performLogin`
never reaches the end of its body, for any input and any fuel. -/
theorem performLogin_end_unreachable :
    (∀ stdin s, LoopHead stdin s →
      s.continue_login = 1 ∧ 0 ≤ s.attempts ∧ s.attempts < 3) ∧
    (∀ stdin s e s', LoopHead stdin s → loginPass s = LoginPass.left e s' →
      e = LoginExit.returned 0 ∨ e = LoginExit.returned 1) ∧
    (∀ fuel stdin s, performLogin fuel stdin ≠ some (LoginExit.fellOffEnd, s)) := by
  refine ⟨loopHead_invariant, ?_, ?_⟩
  · intro stdin s e s' hh hp
    have := loginPass_invariant s (loopHead_invariant stdin s hh)
    rw [hp] at this
    exact this
  · intro fuel stdin s h
    have := performLoginLoop_returns fuel (loginStart stdin)
      (loopHead_invariant stdin _ LoopHead.start) _ _ h
    rcases this with h0 | h1
    · exact LoginExit.noConfusion h0
    · exact LoginExit.noConfusion h1

/-- C17, on the stream "a", "1", "a", "1" (one per line): the loop condition is
evaluated a third time with `attempts = 2` and `continue_login = 1`. -/
theorem performLogin_end_unreachable_witness :
    ∃ s, LoopHead [97, 10, 49, 10, 97, 10, 49, 10] s ∧ s.attempts = 2 ∧
      s.continue_login = 1 ∧ 0 ≤ s.attempts ∧ s.attempts < 3 := by
  have h1 : LoopHead [97, 10, 49, 10, 97, 10, 49, 10]
      { username := List.replicate 32 0, password := List.replicate 32 0,
        continue_login := 1, attempts := 1, stdin := [97, 10, 49, 10],
        trace := [LOGIN_ERROR_WRONG_USERNAME] } :=
    LoopHead.next _ _ LoopHead.start (by decide)
  have h2 : LoopHead [97, 10, 49, 10, 97, 10, 49, 10]
      { username := List.replicate 32 0, password := List.replicate 32 0,
        continue_login := 1, attempts := 2, stdin := [],
        trace := [LOGIN_ERROR_WRONG_USERNAME, LOGIN_ERROR_WRONG_USERNAME] } :=
    LoopHead.next _ _ h1 (by decide)
  exact ⟨_, h2, rfl, performLogin_end_unreachable.1 _ _ h2⟩

/-! ## The menu -/

theorem skipSpaces_cstr (b : List Byte) : skipSpaces (cstr b) = cstr (skipSpaces b) := by
  induction b with
  | nil => rfl
  | cons c rest ih =>
    by_cases h0 : c = 0
    · subst h0
      simp [cstr, skipSpaces, isspace]
    · by_cases hs : isspace c ≠ 0
      · simp only [cstr, h0, if_false, skipSpaces, ih]
        rw [if_pos hs, if_pos hs]
      · simp only [cstr, h0, if_false, skipSpaces]
        rw [if_neg hs, if_neg hs]
        simp only [cstr, h0, if_false]

theorem digitsValue_cstr (b : List Byte) (acc : Nat) :
    digitsValue acc (cstr b) = digitsValue acc b := by
  induction b generalizing acc with
  | nil => rfl
  | cons c rest ih =>
    by_cases h0 : c = 0
    · subst h0
      simp [cstr, digitsValue, isdigit]
    · simp only [cstr, h0, if_false, digitsValue, ih]

theorem headD_cstr (b : List Byte) : (cstr b).headD 0 = b.headD 0 := by
  cases b with
  | nil => rfl
  | cons c rest =>
    by_cases h0 : c = 0
    · simp [cstr, h0]
    · simp [cstr, h0]

/-- The result of `sscanf_d` depends only on the string the array holds. -/
theorem sscanf_d_cstr (b : List Byte) : sscanf_d (cstr b) = sscanf_d b := by
  unfold sscanf_d
  rw [skipSpaces_cstr]
  cases skipSpaces b with
  | nil => rfl
  | cons c rest =>
    by_cases h0 : c = 0
    · subst h0
      simp [cstr, isdigit]
    · simp only [cstr, h0, if_false, headD_cstr, digitsValue_cstr]
      have hd : digitsValue 0 (c :: cstr rest) = digitsValue 0 (c :: rest) := by
        simp only [digitsValue, digitsValue_cstr]
      rw [hd]

theorem sscanf_d_congr (b l : List Byte) (h : cstr b = cstr l) :
    sscanf_d b = sscanf_d l := by
  rw [← sscanf_d_cstr b, h, sscanf_d_cstr]

theorem showMainMenu_of_read (stdin buffer rest : List Byte)
    (h : safeGetLine (List.replicate 10 0) 10 stdin = (some buffer, rest)) :
    showMainMenu stdin = (menuOptionOf (sscanf_d buffer), rest) := by
  unfold showMainMenu menuOptionOf
  rw [h]
  dsimp only
  cases hp : sscanf_d buffer with
  | none => rfl
  | some n =>
    dsimp only
    by_cases h0 : n = 0
    · subst h0; rfl
    · by_cases h1 : n = 1
      · subst h1; rfl
      · by_cases h2 : n = 2
        · subst h2; rfl
        · have hr : n < 0 ∨ n > 2 := by omega
          rw [if_pos hr, if_neg h0, if_neg h1, if_neg h2]

theorem menuLoop_invalid (scan : List Byte → Option Double) (fuel : Nat)
    (stdin : List Byte) (h : (showMainMenu stdin).1 = MENU_INVALID) :
    menuLoop scan (fuel + 1) stdin = menuLoop scan fuel (showMainMenu stdin).2 := by
  rw [menuLoop]
  simp [h, MENU_INVALID, MENU_SALARY_CALCULATION, MENU_ABOUT, MENU_EXIT]

theorem fgetsChars_prefix (l tail : List Byte) (n : Nat)
    (hnl : ∀ c ∈ l, c ≠ 10) (hlen : l.length = n) :
    fgetsChars n (l ++ tail) = (l, tail) := by
  induction l generalizing n with
  | nil =>
    subst hlen
    simp [fgetsChars]
  | cons c l ih =>
    cases n with
    | zero => simp at hlen
    | succ m =>
      have hc : c ≠ 10 := hnl c (List.mem_cons_self c l)
      have hl : ∀ d ∈ l, d ≠ 10 := fun d hd => hnl d (List.mem_cons_of_mem c hd)
      have hm : l.length = m := by simpa using hlen
      simp [fgetsChars, hc, ih m hl hm]

/-- Reading a text without newline that fills the buffer exactly: `fgets` takes
all of it and leaves what follows, the newline included. -/
theorem safeGetLine_full (buffer l tail : List Byte) (size : Nat)
    (hnl : ∀ c ∈ l, c ≠ 10) (hlen : l.length + 1 = size) (hne : l ≠ []) :
    ∃ buf, safeGetLine buffer size (l ++ tail) = (some buf, tail) ∧ cstr buf = cstr l := by
  have h := fgetsChars_prefix l tail (size - 1) hnl (by omega)
  refine ⟨stripNewline (l ++ 0 :: buffer.drop (l.length + 1)), ?_, ?_⟩
  · simp [safeGetLine, fgets, h, hne]
  · exact cstr_stripNewline_eof l _ hnl

/-- A pass of the menu loop with `MENU_INVALID` does not end the loop: with
fuel for that pass alone the loop is still running. -/
theorem menuLoop_invalid_running (scan : List Byte → Option Double)
    (stdin : List Byte) (h : (showMainMenu stdin).1 = MENU_INVALID) :
    menuLoop scan 1 stdin = none := by
  rw [menuLoop]
  simp [h, MENU_INVALID, MENU_SALARY_CALCULATION, MENU_ABOUT, MENU_EXIT, menuLoop]

/-- A pass of the menu loop with `MENU_EXIT` ends the loop. -/
theorem menuLoop_exit (scan : List Byte → Option Double) (fuel : Nat)
    (stdin : List Byte) (h : (showMainMenu stdin).1 = MENU_EXIT) :
    menuLoop scan (fuel + 1) stdin = some (showMainMenu stdin).2 := by
  rw [menuLoop]
  simp [h, MENU_SALARY_CALCULATION, MENU_ABOUT, MENU_EXIT]

/-- The menu loop ends only in a pass in which `showMainMenu` returned
`MENU_EXIT`; what it leaves of the input is what that call left. -/
theorem menuLoop_ends_by_exit (scan : List Byte → Option Double) (fuel : Nat)
    (stdin out : List Byte) (h : menuLoop scan fuel stdin = some out) :
    ∃ last, (showMainMenu last).1 = MENU_EXIT ∧ (showMainMenu last).2 = out := by
  induction fuel generalizing stdin with
  | zero => simp [menuLoop] at h
  | succ n ih =>
    rw [menuLoop] at h
    by_cases he : (showMainMenu stdin).1 = MENU_EXIT
    · refine ⟨stdin, he, ?_⟩
      simp [he, MENU_SALARY_CALCULATION, MENU_ABOUT, MENU_EXIT] at h
      exact h
    · split at h
      · exact Option.noConfusion h
      · rw [if_pos he] at h
        exact ih _ h

/-- After the login with the lines "hgzy" and "1234", `main` runs the menu loop
on the rest of the input and exits with `EXIT_SUCCESS` when the loop ends. -/
theorem main_after_login (scan : List Byte → Option Double) (fuel : Nat)
    (stdin : List Byte) :
    main scan (fuel + 1) ([104, 103, 122, 121, 10, 49, 50, 51, 52, 10] ++ stdin) =
      (menuLoop scan (fuel + 1) stdin).map (fun _ => MainExit.exited EXIT_SUCCESS) := by
  obtain ⟨u, p, e⟩ := performLoginLoop_success_pair fuel
    (loginStart ([104, 103, 122, 121, 10, 49, 50, 51, 52, 10] ++ stdin))
    [104, 103, 122, 121] [49, 50, 51, 52] (10 :: stdin)
    (by decide) (by decide) (by decide) (by decide) (Or.inl ⟨_, rfl⟩)
    (by simp [loginStart]) (by simp [loginStart]) (by simp [loginStart]) (by decide)
  unfold main
  rw [performLogin_eq_loop, e]
  simp only [List.tail_cons]
  cases menuLoop scan (fuel + 1) stdin <;> simp

/-- The option `showMainMenu` returns on a stream that starts with a line of at
most 9 bytes is the option of that line. -/
theorem showMainMenu_line_option (l tail : List Byte)
    (hnl : ∀ c ∈ l, c ≠ 10) (hlen : l.length ≤ 9)
    (hend : (∃ rest, tail = 10 :: rest) ∨ (tail = [] ∧ l ≠ [])) :
    (showMainMenu (l ++ tail)).1 = menuOptionOf (sscanf_d l) := by
  by_cases h9 : l.length = 9
  · have hne : l ≠ [] := by
      intro e
      rw [e] at h9
      simp at h9
    obtain ⟨buf, hb, hc⟩ := safeGetLine_full (List.replicate 10 0) l tail 10 hnl
      (by omega) hne
    rw [showMainMenu_of_read _ buf _ hb, sscanf_d_congr buf l hc]
  · obtain ⟨buf, hb, hc⟩ := safeGetLine_fit (List.replicate 10 0) l tail 10 hnl
      (by omega) hend
    rw [showMainMenu_of_read _ buf _ hb, sscanf_d_congr buf l hc]

/-- On a stream that starts with a line of at most 8 bytes, `showMainMenu`
leaves the input after that line. -/
theorem showMainMenu_line (l tail : List Byte)
    (hnl : ∀ c ∈ l, c ≠ 10) (hlen : l.length ≤ 8)
    (hend : (∃ rest, tail = 10 :: rest) ∨ (tail = [] ∧ l ≠ [])) :
    showMainMenu (l ++ tail) = (menuOptionOf (sscanf_d l), tail.tail) := by
  obtain ⟨buf, hb, hc⟩ := safeGetLine_fit (List.replicate 10 0) l tail 10 hnl
    (by omega) hend
  rw [showMainMenu_of_read _ buf _ hb, sscanf_d_congr buf l hc]

/-! ## Claims about the menu -/

/-- C13 as stated fails when the line does not fit the 10-byte buffer.  The
line `0000000001` (ten bytes) parses to the integer 1, the payroll option; but
`fgets` takes only its first nine bytes, `sscanf` reads 0 from them, and
`showMainMenu` returns `MENU_EXIT`, leaving `1` and the newline unread. -/
theorem showMainMenu_options_counterexample :
    (∀ c ∈ ([48, 48, 48, 48, 48, 48, 48, 48, 48, 49] : List Byte), c ≠ 10) ∧
    sscanf_d [48, 48, 48, 48, 48, 48, 48, 48, 48, 49] = some 1 ∧
    menuOptionOf (sscanf_d [48, 48, 48, 48, 48, 48, 48, 48, 48, 49])
      = MENU_SALARY_CALCULATION ∧
    showMainMenu ([48, 48, 48, 48, 48, 48, 48, 48, 48, 49] ++ [10])
      = (MENU_EXIT, [49, 10]) ∧
    MENU_EXIT ≠ MENU_SALARY_CALCULATION := by
  decide

/-- C13, amended to lines of at most 9 bytes (one read into the 10-byte buffer
then takes the whole text of the line).  `showMainMenu` returns `MENU_EXIT` at
end of input.  On a stream that starts with such a line it returns the option
of the line (`menuOptionOf`): `MENU_EXIT`, `MENU_SALARY_CALCULATION` or
`MENU_ABOUT` when the line parses to 0, 1 or 2, `MENU_INVALID` when it parses
to another integer or does not parse; with at most 8 bytes the input left is
what follows the line.  On any stream the option is that of the text
`safeGetLine` delivered.  In the loop of `main` a pass with `MENU_INVALID` does
not end the loop (with fuel for that pass alone the loop is still running) and
the next pass shows the menu on the input left; a pass with `MENU_EXIT` ends
the loop, and the loop ends in no other way.  For the whole program: after the
login, an invalid line of at most 8 bytes before the input `stdin` leaves
`main` with the result it has on `stdin` alone. -/
theorem showMainMenu_options (stdin : List Byte) :
    (stdin = [] → showMainMenu stdin = (MENU_EXIT, [])) ∧
    (∀ l tail, stdin = l ++ tail → (∀ c ∈ l, c ≠ 10) → l.length ≤ 9 →
      ((∃ rest, tail = 10 :: rest) ∨ (tail = [] ∧ l ≠ [])) →
      (showMainMenu stdin).1 = menuOptionOf (sscanf_d l) ∧
      (l.length ≤ 8 → (showMainMenu stdin).2 = tail.tail)) ∧
    (∀ buffer rest, safeGetLine (List.replicate 10 0) 10 stdin = (some buffer, rest) →
      showMainMenu stdin = (menuOptionOf (sscanf_d buffer), rest)) ∧
    (stdin ≠ [] → ∃ buffer rest,
      safeGetLine (List.replicate 10 0) 10 stdin = (some buffer, rest)) ∧
    (menuOptionOf (some 0) = MENU_EXIT ∧
      menuOptionOf (some 1) = MENU_SALARY_CALCULATION ∧
      menuOptionOf (some 2) = MENU_ABOUT ∧
      (∀ n : Int, n ≠ 0 → n ≠ 1 → n ≠ 2 → menuOptionOf (some n) = MENU_INVALID) ∧
      menuOptionOf none = MENU_INVALID) ∧
    (∀ scan, (showMainMenu stdin).1 = MENU_INVALID →
      menuLoop scan 1 stdin = none ∧
      ∀ fuel, menuLoop scan (fuel + 1) stdin = menuLoop scan fuel (showMainMenu stdin).2) ∧
    (∀ scan fuel, (showMainMenu stdin).1 = MENU_EXIT →
      menuLoop scan (fuel + 1) stdin = some (showMainMenu stdin).2) ∧
    (∀ scan fuel out, menuLoop scan fuel stdin = some out →
      ∃ last, (showMainMenu last).1 = MENU_EXIT ∧ (showMainMenu last).2 = out) ∧
    (∀ scan fuel l, (∀ c ∈ l, c ≠ 10) → l.length ≤ 8 →
      menuOptionOf (sscanf_d l) = MENU_INVALID →
      main scan (fuel + 2)
          ([104, 103, 122, 121, 10, 49, 50, 51, 52, 10] ++ (l ++ 10 :: stdin))
        = main scan (fuel + 1) ([104, 103, 122, 121, 10, 49, 50, 51, 52, 10] ++ stdin)) := by
  refine ⟨?_, ?_, ?_, ?_, ?_, ?_, ?_, ?_, ?_⟩
  · intro h
    subst h
    simp [showMainMenu, safeGetLine_nil]
  · intro l tail hs hnl hlen hend
    subst hs
    refine ⟨showMainMenu_line_option l tail hnl hlen hend, ?_⟩
    intro h8
    rw [showMainMenu_line l tail hnl h8 hend]
  · intro buffer rest h
    exact showMainMenu_of_read stdin buffer rest h
  · intro h
    simp [safeGetLine, fgets, h]
  · refine ⟨rfl, rfl, rfl, ?_, rfl⟩
    intro n h0 h1 h2
    simp [menuOptionOf, h0, h1, h2]
  · intro scan h
    exact ⟨menuLoop_invalid_running scan stdin h, fun fuel => menuLoop_invalid scan fuel stdin h⟩
  · intro scan fuel h
    exact menuLoop_exit scan fuel stdin h
  · intro scan fuel out h
    exact menuLoop_ends_by_exit scan fuel stdin out h
  · intro scan fuel l hnl hlen hinv
    have hm : showMainMenu (l ++ 10 :: stdin) = (MENU_INVALID, stdin) := by
      rw [showMainMenu_line l (10 :: stdin) hnl hlen (Or.inl ⟨_, rfl⟩), hinv]
      rfl
    have hl := menuLoop_invalid scan (fuel + 1) (l ++ 10 :: stdin) (by rw [hm])
    rw [hm] at hl
    rw [main_after_login scan (fuel + 1), main_after_login scan fuel, hl]

/-- C13 amended, on the lines "0", "1", "2", "7", "abc" and on the empty
stream: exit, payroll, about, invalid, invalid, exit.  On the lines "7", "0"
the menu loop is still running after one pass and ends in the second; and
`main`, after the login, exits with `EXIT_SUCCESS` on them. -/
theorem showMainMenu_options_witness :
    (showMainMenu [48, 10]).1 = MENU_EXIT ∧
    (showMainMenu [49, 10]).1 = MENU_SALARY_CALCULATION ∧
    (showMainMenu [50, 10]).1 = MENU_ABOUT ∧
    (showMainMenu [55, 10]).1 = MENU_INVALID ∧
    (showMainMenu [97, 98, 99, 10]).1 = MENU_INVALID ∧
    showMainMenu [] = (MENU_EXIT, []) ∧
    menuLoop (fun _ => none) 1 [55, 10, 48, 10] = none ∧
    menuLoop (fun _ => none) 2 [55, 10, 48, 10] = some [] ∧
    main (fun _ => none) 3
        ([104, 103, 122, 121, 10, 49, 50, 51, 52, 10] ++ ([55] ++ 10 :: [48, 10]))
      = some (MainExit.exited EXIT_SUCCESS) :=
  ⟨((showMainMenu_options [48, 10]).2.1 [48] [10] rfl (by decide) (by decide)
      (Or.inl ⟨_, rfl⟩)).1.trans (by decide),
   ((showMainMenu_options [49, 10]).2.1 [49] [10] rfl (by decide) (by decide)
      (Or.inl ⟨_, rfl⟩)).1.trans (by decide),
   ((showMainMenu_options [50, 10]).2.1 [50] [10] rfl (by decide) (by decide)
      (Or.inl ⟨_, rfl⟩)).1.trans (by decide),
   ((showMainMenu_options [55, 10]).2.1 [55] [10] rfl (by decide) (by decide)
      (Or.inl ⟨_, rfl⟩)).1.trans (by decide),
   ((showMainMenu_options [97, 98, 99, 10]).2.1 [97, 98, 99] [10] rfl (by decide)
      (by decide) (Or.inl ⟨_, rfl⟩)).1.trans (by decide),
   (showMainMenu_options []).1 rfl,
   ((showMainMenu_options [55, 10, 48, 10]).2.2.2.2.2.1 (fun _ => none) (by decide)).1,
   (((showMainMenu_options [55, 10, 48, 10]).2.2.2.2.2.1 (fun _ => none)
      (by decide)).2 1).trans (by decide),
   ((showMainMenu_options [48, 10]).2.2.2.2.2.2.2.2 (fun _ => none) 1 [55] (by decide)
      (by decide) (by decide)).trans (by decide)⟩

/-! ## The prompts of `runSalaryCalculation` -/

theorem hoursBody_end_of_input (scan : List Byte → Option Double) (st : SalaryState)
    (hs : st.stdin = []) : hoursBody scan st = st := by
  unfold hoursBody
  rw [hs, safeGetLine_nil]
  dsimp only
  rw [← hs]

theorem rateBody_end_of_input (scan : List Byte → Option Double) (st : SalaryState)
    (hs : st.stdin = []) : rateBody scan st = st := by
  unfold rateBody
  rw [hs, safeGetLine_nil]
  dsimp only
  rw [← hs]

theorem hoursLoop_end_of_input (scan : List Byte → Option Double) (fuel : Nat)
    (st : SalaryState) (hs : st.stdin = []) (hv : st.valid_input = 0) :
    hoursLoop scan fuel st = none := by
  induction fuel with
  | zero => rfl
  | succ n ih =>
    rw [hoursLoop, hoursBody_end_of_input scan st hs, if_pos hv]
    exact ih

theorem rateLoop_end_of_input (scan : List Byte → Option Double) (fuel : Nat)
    (st : SalaryState) (hs : st.stdin = []) (hv : st.valid_input = 0) :
    rateLoop scan fuel st = none := by
  induction fuel with
  | zero => rfl
  | succ n ih =>
    rw [rateLoop, rateBody_end_of_input scan st hs, if_pos hv]
    exact ih

/-- The hours loop ends only in a state whose `hours` passed `validateHours`,
and it consumes input only through `safeGetLine`. -/
theorem hoursBody_valid (scan : List Byte → Option Double) (st : SalaryState)
    (hv : st.valid_input = 0) (h : (hoursBody scan st).valid_input ≠ 0) :
    validateHoursDouble (hoursBody scan st).hours ≠ 0 := by
  unfold hoursBody at h ⊢
  rcases hg : safeGetLine st.buffer 100 st.stdin with ⟨_ | buf, st1⟩
  · rw [hg] at h
    exact absurd hv h
  · rw [hg] at h
    dsimp only at h ⊢
    cases hsc : scan buf with
    | none =>
      rw [hsc] at h
      exact absurd hv h
    | some v =>
      rw [hsc] at h
      dsimp only at h ⊢
      by_cases hval : validateHoursDouble v = 0
      · rw [if_pos hval] at h
        exact absurd hv h
      · rw [if_neg hval]
        exact hval

theorem hoursLoop_valid (scan : List Byte → Option Double) (fuel : Nat)
    (st st' : SalaryState) (hv : st.valid_input = 0)
    (h : hoursLoop scan fuel st = some st') :
    validateHoursDouble st'.hours ≠ 0 := by
  induction fuel generalizing st with
  | zero => simp [hoursLoop] at h
  | succ n ih =>
    rw [hoursLoop] at h
    by_cases hb : (hoursBody scan st).valid_input = 0
    · rw [if_pos hb] at h
      exact ih _ hb h
    · rw [if_neg hb] at h
      simp only [Option.some.injEq] at h
      rw [← h]
      exact hoursBody_valid scan st hv hb

theorem rateBody_hours (scan : List Byte → Option Double) (st : SalaryState) :
    (rateBody scan st).hours = st.hours := by
  unfold rateBody
  rcases safeGetLine st.buffer 100 st.stdin with ⟨_ | buf, st1⟩
  · rfl
  · dsimp only
    cases scan buf with
    | none => rfl
    | some v =>
      dsimp only
      split_ifs <;> rfl

theorem rateBody_valid (scan : List Byte → Option Double) (st : SalaryState)
    (hv : st.valid_input = 0) (h : (rateBody scan st).valid_input ≠ 0) :
    Double.le (rateBody scan st).hourlyRate (Double.finite 0) = false := by
  unfold rateBody at h ⊢
  rcases hg : safeGetLine st.buffer 100 st.stdin with ⟨_ | buf, st1⟩
  · rw [hg] at h
    exact absurd hv h
  · rw [hg] at h
    dsimp only at h ⊢
    cases hsc : scan buf with
    | none =>
      rw [hsc] at h
      exact absurd hv h
    | some v =>
      rw [hsc] at h
      dsimp only at h ⊢
      by_cases hval : Double.le v (Double.finite 0) = true
      · rw [if_pos hval] at h
        exact absurd hv h
      · rw [if_neg hval]
        simpa using hval

theorem rateLoop_valid (scan : List Byte → Option Double) (fuel : Nat)
    (st st' : SalaryState) (hv : st.valid_input = 0)
    (h : rateLoop scan fuel st = some st') :
    st'.hours = st.hours ∧ Double.le st'.hourlyRate (Double.finite 0) = false := by
  induction fuel generalizing st with
  | zero => simp [rateLoop] at h
  | succ n ih =>
    rw [rateLoop] at h
    by_cases hb : (rateBody scan st).valid_input = 0
    · rw [if_pos hb] at h
      have := ih _ hb h
      exact ⟨this.1.trans (rateBody_hours scan st), this.2⟩
    · rw [if_neg hb] at h
      simp only [Option.some.injEq] at h
      rw [← h]
      exact ⟨rateBody_hours scan st, rateBody_valid scan st hv hb⟩

theorem validateHoursDouble_ne_zero (h : Double) :
    validateHoursDouble h ≠ 0 ↔ ∃ q, h = Double.finite q ∧ 0 ≤ q ∧ q ≤ 60 := by
  cases h with
  | finite q =>
    by_cases hq : 0 ≤ q ∧ q ≤ 60
    · simp [validateHoursDouble, Double.le, MIN_HOURS, MAX_HOURS, hq]
    · simp only [validateHoursDouble, Double.le, MIN_HOURS, MAX_HOURS, decide_eq_true_eq,
        if_neg hq, ne_eq, not_true_eq_false, false_iff]
      rintro ⟨q', he, h1, h2⟩
      cases he
      exact hq ⟨h1, h2⟩
  | posInf => simp [validateHoursDouble, Double.le]
  | negInf => simp [validateHoursDouble, Double.le]
  | nan => simp [validateHoursDouble, Double.le]

theorem double_not_le_zero (r : Double) :
    Double.le r (Double.finite 0) = false ↔
      r = Double.nan ∨ r = Double.posInf ∨ ∃ q, r = Double.finite q ∧ 0 < q := by
  cases r with
  | finite q => simp [Double.le]
  | posInf => simp [Double.le]
  | negInf => simp [Double.le]
  | nan => simp [Double.le]

/-- What holds at the call `calculateSalary(hours, hourlyRate)` of
`runSalaryCalculation`: `hours` is a number with `0 ≤ hours ≤ 60`, and
`hourlyRate` failed the test `hourlyRate <= 0`, so it is a positive number,
`+∞`, or NaN. -/
theorem runSalaryCalculation_arguments (scan : List Byte → Option Double) (fuel : Nat)
    (stdin : List Byte) (r : SalaryRun) (h : runSalaryCalculation scan fuel stdin = some r) :
    (∃ q, r.hours = Double.finite q ∧ 0 ≤ q ∧ q ≤ 60) ∧
    (r.hourlyRate = Double.nan ∨ r.hourlyRate = Double.posInf ∨
      ∃ q, r.hourlyRate = Double.finite q ∧ 0 < q) := by
  unfold runSalaryCalculation at h
  cases h1 : hoursLoop scan fuel
      { hours := Double.finite 0, hourlyRate := Double.finite 0,
        buffer := List.replicate 100 0, valid_input := 0, stdin := stdin } with
  | none => rw [h1] at h; exact Option.noConfusion h
  | some st1 =>
    rw [h1] at h
    dsimp only at h
    cases h2 : rateLoop scan fuel { st1 with valid_input := 0 } with
    | none => rw [h2] at h; exact Option.noConfusion h
    | some st2 =>
      rw [h2] at h
      simp only [Option.some.injEq] at h
      have hh := hoursLoop_valid scan fuel _ st1 rfl h1
      have hr := rateLoop_valid scan fuel _ st2 rfl h2
      rw [← h]
      dsimp only
      refine ⟨?_, (double_not_le_zero _).mp hr.2⟩
      rw [hr.1]
      exact (validateHoursDouble_ne_zero _).mp hh

theorem hoursBody_stdin (scan : List Byte → Option Double) (st : SalaryState) :
    (hoursBody scan st).stdin = (safeGetLine st.buffer 100 st.stdin).2 := by
  unfold hoursBody
  rcases safeGetLine st.buffer 100 st.stdin with ⟨_ | buf, st1⟩
  · rfl
  · dsimp only
    cases scan buf with
    | none => rfl
    | some v =>
      dsimp only
      split_ifs <;> rfl

/-! ## Claims about `runSalaryCalculation` -/

/-- C15 fails on the code: at end of input `runSalaryCalculation` never
returns, whatever `sscanf` does.  On the empty stream the hours prompt spins;
on the stream "40" followed by a newline and nothing else, the input ends at
the hours prompt (if 40 was not accepted) or at the rate prompt, and that loop
spins: a failed read does `continue` with `valid_input` still 0. -/
theorem runSalaryCalculation_spins_at_end_of_input
    (scan : List Byte → Option Double) (fuel : Nat) :
    runSalaryCalculation scan fuel [] = none ∧
    runSalaryCalculation scan fuel [52, 48, 10] = none := by
  constructor
  · unfold runSalaryCalculation
    rw [hoursLoop_end_of_input scan fuel _ rfl rfl]
  · unfold runSalaryCalculation
    cases fuel with
    | zero => rfl
    | succ n =>
      have hst : (hoursBody scan
          { hours := Double.finite 0, hourlyRate := Double.finite 0,
            buffer := List.replicate 100 0, valid_input := 0,
            stdin := [52, 48, 10] }).stdin = [] := by
        rw [hoursBody_stdin]
        decide
      rw [hoursLoop]
      by_cases hv : (hoursBody scan
          { hours := Double.finite 0, hourlyRate := Double.finite 0,
            buffer := List.replicate 100 0, valid_input := 0,
            stdin := [52, 48, 10] }).valid_input = 0
      · rw [if_pos hv, hoursLoop_end_of_input scan n _ hst hv]
      · rw [if_neg hv]
        dsimp only
        rw [rateLoop_end_of_input scan (n + 1)
          { hoursBody scan
              { hours := Double.finite 0, hourlyRate := Double.finite 0,
                buffer := List.replicate 100 0, valid_input := 0,
                stdin := [52, 48, 10] } with valid_input := 0 } hst rfl]

/-- C16 fails on the code when the rate typed is "nan".  For any `sscanf` that
reads "40" as 40 and "nan" as NaN (as the C standard has it), on the lines
"40", "nan" and an empty line `runSalaryCalculation` calls `calculateSalary`
with `hours = 40` and `hourlyRate = NaN`: the test `hourlyRate <= 0` is false
for NaN, so the value is accepted, and it is not a positive number. -/
theorem runSalaryCalculation_nan_rate (scan : List Byte → Option Double) (fuel : Nat)
    (h40 : ∀ b, cstr b = [52, 48] → scan b = some (Double.finite 40))
    (hnan : ∀ b, cstr b = [110, 97, 110] → scan b = some Double.nan)
    (hfuel : 1 ≤ fuel) :
    runSalaryCalculation scan fuel [52, 48, 10, 110, 97, 110, 10, 10] =
      some { hours := Double.finite 40, hourlyRate := Double.nan, salary := none,
             stdin := [] } := by
  obtain ⟨n, rfl⟩ : ∃ n, fuel = n + 1 := ⟨fuel - 1, by omega⟩
  obtain ⟨b1, hb1, hc1⟩ := safeGetLine_line (List.replicate 100 0) [52, 48]
    [110, 97, 110, 10, 10] 100 (by decide) (by decide)
  obtain ⟨b2, hb2, hc2⟩ := safeGetLine_line b1 [110, 97, 110] [10] 100 (by decide)
    (by decide)
  have hs1 : scan b1 = some (Double.finite 40) := h40 b1 (hc1.trans (by decide))
  have hs2 : scan b2 = some Double.nan := hnan b2 (hc2.trans (by decide))
  have hv40 : validateHoursDouble (Double.finite 40) ≠ 0 :=
    (validateHoursDouble_ne_zero _).mpr ⟨40, rfl, by norm_num, by norm_num⟩
  have e1 : hoursBody scan
      { hours := Double.finite 0, hourlyRate := Double.finite 0,
        buffer := List.replicate 100 0, valid_input := 0,
        stdin := [52, 48, 10, 110, 97, 110, 10, 10] } =
      { hours := Double.finite 40, hourlyRate := Double.finite 0, buffer := b1,
        valid_input := 1, stdin := [110, 97, 110, 10, 10] } := by
    unfold hoursBody
    simp only [List.cons_append, List.nil_append] at hb1
    simp only [hb1, hs1, if_neg hv40]
  have e2 : rateBody scan
      { hours := Double.finite 40, hourlyRate := Double.finite 0, buffer := b1,
        valid_input := 0, stdin := [110, 97, 110, 10, 10] } =
      { hours := Double.finite 40, hourlyRate := Double.nan, buffer := b2,
        valid_input := 1, stdin := [10] } := by
    unfold rateBody
    simp only [List.cons_append, List.nil_append] at hb2
    simp [hb2, hs2, Double.le]
  unfold runSalaryCalculation
  rw [hoursLoop, e1]
  simp only [one_ne_zero, if_false]
  rw [rateLoop, e2]
  simp [calculateSalaryDouble, getchar]

/-- C16, with a scanner that reads "nan" as NaN and anything else as 40: the
hypotheses of the theorem hold and the call gets a NaN rate. -/
theorem runSalaryCalculation_nan_rate_witness :
    runSalaryCalculation
        (fun b => if cstr b = [110, 97, 110] then some Double.nan
          else some (Double.finite 40))
        1 [52, 48, 10, 110, 97, 110, 10, 10] =
      some { hours := Double.finite 40, hourlyRate := Double.nan, salary := none,
             stdin := [] } :=
  runSalaryCalculation_nan_rate _ 1
    (by intro b hb; simp [hb])
    (by intro b hb; simp [hb])
    (le_refl 1)

end Payroll
